import Mathlib

/-!
# Verification of the Vietnamese legal-document segmenter and structural differ

A shallow embedding, in Lean 4, of the two core components of the repository:

* `preprocess/segmenter.py` — document-type detection, the cascade of
  segmentation strategies (`segment`, `_segment_law_document`,
  `_segment_decree_document`, `_segment_circular_document`,
  `_segment_generic_document`, `_segment_by_dieu`,
  `_segment_by_chapters_advanced`, `_segment_by_roman_advanced`,
  `_segment_fallback_advanced`, `_parse_clauses_advanced`,
  `_parse_points_advanced`, `_validate_segmentation`), and
* `preprocess/diff_engine.py` — `_norm_text`, `_article_id`, `_clauses_of`,
  `_kv_index`, `diff_articles`.

Text is modelled as `List Char`.  The Python `re` patterns used by the
segmenter (`ART_LAW`, `CHAPTER`, `CLAUSE`, `POINT`, `SUBPOINT`, `ROMAN`,
`DOC_TYPE_PATTERNS` and the inline patterns of `_segment_fallback_advanced`
and `_normalize_text`) are hand-compiled into deterministic scanners that
reproduce the backtracking behaviour of the original patterns, including the
`re.MULTILINE` meaning of `^`/`$`, the `re.DOTALL` meaning of `.`, the lazy
groups with lookahead boundaries, and the greedy `\s+`/`\s*` runs.

Modelling conventions (noted where they matter):
* `\s` and `str.strip()` use the six ASCII whitespace characters
  (space, tab, newline, carriage return, form feed, vertical tab);
* `\d` is the ASCII digit class;
* `re.IGNORECASE` and `str.upper()` are modelled by a character-wise case
  table covering ASCII letters and the full Vietnamese alphabet that appears
  in the source patterns and keyword lists;
* Python float division used for the preservation ratio is modelled as exact
  rational division (`mkRat`); the float-formatted numeric suffixes of the
  two ratio warning messages are elided (the messages keep their distinctive
  prefixes), while the "No articles found" and "Very long clause" messages
  are modelled in full.
-/

set_option maxRecDepth 20000
set_option maxHeartbeats 1000000

namespace VnLegal

/-! ## Character classes and the Vietnamese case table -/

/-- Whitespace class used for Python's `\s` and `str.strip()`. -/
def isWs (c : Char) : Bool :=
  c = ' ' || c = '\t' || c = '\n' || c = '\r' || c = '\x0b' || c = '\x0c'

/-- Uppercase/lowercase pairs of the Vietnamese alphabet, exactly the letters
enumerated in the segmenter's header-detection character class. -/
def viPairs : List (Char × Char) :=
  [('À','à'),('Á','á'),('Ạ','ạ'),('Ả','ả'),('Ã','ã'),('Â','â'),('Ầ','ầ'),('Ấ','ấ'),
   ('Ậ','ậ'),('Ẩ','ẩ'),('Ẫ','ẫ'),('Ă','ă'),('Ằ','ằ'),('Ắ','ắ'),('Ặ','ặ'),('Ẳ','ẳ'),
   ('Ẵ','ẵ'),('È','è'),('É','é'),('Ẹ','ẹ'),('Ẻ','ẻ'),('Ẽ','ẽ'),('Ê','ê'),('Ề','ề'),
   ('Ế','ế'),('Ệ','ệ'),('Ể','ể'),('Ễ','ễ'),('Ì','ì'),('Í','í'),('Ị','ị'),('Ỉ','ỉ'),
   ('Ĩ','ĩ'),('Ò','ò'),('Ó','ó'),('Ọ','ọ'),('Ỏ','ỏ'),('Õ','õ'),('Ô','ô'),('Ồ','ồ'),
   ('Ố','ố'),('Ộ','ộ'),('Ổ','ổ'),('Ỗ','ỗ'),('Ơ','ơ'),('Ờ','ờ'),('Ớ','ớ'),('Ợ','ợ'),
   ('Ở','ở'),('Ỡ','ỡ'),('Ù','ù'),('Ú','ú'),('Ụ','ụ'),('Ủ','ủ'),('Ũ','ũ'),('Ư','ư'),
   ('Ừ','ừ'),('Ứ','ứ'),('Ự','ự'),('Ử','ử'),('Ữ','ữ'),('Ỳ','ỳ'),('Ý','ý'),('Ỵ','ỵ'),
   ('Ỷ','ỷ'),('Ỹ','ỹ'),('Đ','đ')]

/-- Case folding to lowercase (models `re.IGNORECASE` comparisons and
`str.lower`-style folding for the alphabet the patterns use). -/
def foldVi (c : Char) : Char :=
  if 'A' ≤ c && c ≤ 'Z' then Char.ofNat (c.toNat + 32)
  else match viPairs.find? (fun p => p.1 = c) with
       | some p => p.2
       | none => c

/-- Character-wise model of `str.upper()` for the same alphabet. -/
def upperVi (c : Char) : Char :=
  if 'a' ≤ c && c ≤ 'z' then Char.ofNat (c.toNat - 32)
  else match viPairs.find? (fun p => p.2 = c) with
       | some p => p.1
       | none => c

/-- Membership in the uppercase character class
`[A-ZÀÁẠ…Đ]` of `_segment_fallback_advanced`'s header patterns. -/
def isUpperViClass (c : Char) : Bool :=
  ('A' ≤ c && c ≤ 'Z') || viPairs.any (fun p => p.1 = c)

/-- Uppercase Roman-numeral letters `[IVXLCDM]`. -/
def isRomanU (c : Char) : Bool :=
  c = 'I' || c = 'V' || c = 'X' || c = 'L' || c = 'C' || c = 'D' || c = 'M'

/-- Roman-numeral letters under `re.IGNORECASE`. -/
def isRomanCI (c : Char) : Bool := isRomanU (upperVi c)

def isAsciiAlpha (c : Char) : Bool :=
  ('a' ≤ c && c ≤ 'z') || ('A' ≤ c && c ≤ 'Z')

/-! ## Position-based scanning primitives over `List Char` -/

/-- Length of the longest prefix satisfying `p`. -/
def countWhile (p : Char → Bool) : List Char → Nat
  | [] => 0
  | c :: t => if p c then countWhile p t + 1 else 0

/-- The character at position `i`, if any. -/
def charAt (s : List Char) (i : Nat) : Option Char := (s.drop i).head?

/-- `true` iff position `i` holds exactly character `c`. -/
def charIs (s : List Char) (i : Nat) (c : Char) : Bool :=
  match charAt s i with
  | some d => d = c
  | none => false

/-- First position `≥ i` whose character fails `p` (greedy class repetition). -/
def skipPos (p : Char → Bool) (s : List Char) (i : Nat) : Nat :=
  i + countWhile p (s.drop i)

def skipWsPos (s : List Char) (i : Nat) : Nat := skipPos isWs s i
def skipDigitsPos (s : List Char) (i : Nat) : Nat := skipPos Char.isDigit s i

/-- The slice `s[i:j]` (Python slicing). -/
def seg (s : List Char) (i j : Nat) : List Char := (s.take j).drop i

/-- Case-insensitive literal match: does `t` start with `lit`
(`lit` given in lowercase)? -/
def foldPrefix (lit : List Char) (t : List Char) : Bool :=
  match lit, t with
  | [], _ => true
  | _ :: _, [] => false
  | a :: l, c :: t => (foldVi c = a) && foldPrefix l t

/-- Exact (case-sensitive) literal prefix match. -/
def exactPrefixL (lit : List Char) (t : List Char) : Bool :=
  match lit, t with
  | [], _ => true
  | _ :: _, [] => false
  | a :: l, c :: t => (c = a) && exactPrefixL l t

/-- Case-insensitive literal at position `i`. -/
def litAt (s : List Char) (i : Nat) (lit : List Char) : Bool :=
  foldPrefix lit (s.drop i)

/-- Case-sensitive literal at position `i`. -/
def exactAt (s : List Char) (i : Nat) (lit : List Char) : Bool :=
  exactPrefixL lit (s.drop i)

/-- `pat` occurs somewhere in `t`, case-insensitively (`pattern.search` for a
plain alternation literal). -/
def containsFold (t lit : List Char) : Bool :=
  foldPrefix lit t ||
    match t with
    | [] => false
    | _ :: r => containsFold r lit

/-- `l1 \s* l2` occurs somewhere in `t`, case-insensitively (e.g. the
`NGHỊ\s*ĐỊNH` pattern). -/
def containsGap (t l1 l2 : List Char) : Bool :=
  (foldPrefix l1 t && foldPrefix l2 ((t.drop l1.length).dropWhile isWs)) ||
    match t with
    | [] => false
    | _ :: r => containsGap r l1 l2

/-- `pat` occurs somewhere in `t`, exactly (Python's `in` for strings). -/
def containsSub (t pat : List Char) : Bool :=
  exactPrefixL pat t ||
    match t with
    | [] => false
    | _ :: r => containsSub r pat

/-- The `(?:^|\n)` anchor of the `CHAPTER`/`CLAUSE`/`POINT`/`SUBPOINT`/`ROMAN`
patterns under `re.MULTILINE`: a match can start at position `p` iff `p` is the
start of the text, is preceded by a newline (zero-width `^`), or itself holds a
newline (consumed by the `\n` alternative). -/
def anchorOk (s : List Char) (p : Nat) : Bool :=
  p == 0 || charIs s (p - 1) '\n' || charIs s p '\n'

/-- Index of the first `'\n'` at position `≥ i`, if any. -/
def nextNl (s : List Char) (i : Nat) : Option Nat :=
  match (s.drop i).findIdx? (fun c => c = '\n') with
  | some j => some (i + j)
  | none => none

/-! ## The `ART_LAW` pattern

`(Điều\s+(\d+[a-zA-Z]?))\s*[\.\:\-]?\s*(.*?)(?=\s*Điều\s+\d+|$)` with
`IGNORECASE | MULTILINE | DOTALL`.  The lazy group 3 stops at the first
position where either `\s*Điều\s+\d+` follows or `$` holds; under
`re.MULTILINE`, `$` holds at the end of the text and immediately before any
newline. -/

def dieuLit : List Char := "điều".data

/-- The `(?=\s*Điều\s+\d+|$)` lookahead of `ART_LAW` at position `i`. -/
def artBoundary (s : List Char) (i : Nat) : Bool :=
  decide (s.length ≤ i) || charIs s i '\n' ||
    (let w := skipWsPos s i
     litAt s w dieuLit &&
       (let a := w + dieuLit.length
        let b := skipWsPos s a
        decide (a < b) && (match charAt s b with
                           | some c => c.isDigit
                           | none => false)))

/-- First position `≥ i` satisfying `artBoundary` (total: the boundary holds
at the end of the text). -/
def artTitleEnd (s : List Char) : Nat → Nat → Nat
  | 0, i => i
  | f + 1, i => if artBoundary s i then i else artTitleEnd s f (i + 1)

/-- One `ART_LAW` match: absolute start/end offsets, group 2 (the article
number) and group 3 (the raw title). -/
structure ArtMatch where
  mStart : Nat
  mEnd : Nat
  num : List Char
  title : List Char
deriving DecidableEq

/-- Attempt an `ART_LAW` match starting exactly at position `p`. -/
def artLawMatchAt (s : List Char) (p : Nat) : Option ArtMatch :=
  if litAt s p dieuLit then
    let a := p + dieuLit.length
    let b := skipWsPos s a
    if a < b then
      let d := skipDigitsPos s b
      if b < d then
        let numEnd := match charAt s d with
          | some c => if isAsciiAlpha c then d + 1 else d
          | none => d
        let j1 := skipWsPos s numEnd
        let j2 := match charAt s j1 with
          | some c => if c = '.' || c = ':' || c = '-' then j1 + 1 else j1
          | none => j1
        let j3 := skipWsPos s j2
        let e := artTitleEnd s (s.length + 1) j3
        some ⟨p, e, seg s b numEnd, seg s j3 e⟩
      else none
    else none
  else none

/-- `ART_LAW.finditer`: scan positions left to right, emitting non-overlapping
matches and resuming at each match's end. -/
def artLawFindFrom (s : List Char) : Nat → Nat → List ArtMatch
  | 0, _ => []
  | f + 1, p =>
    if s.length < p then []
    else match artLawMatchAt s p with
      | some m => m :: artLawFindFrom s f m.mEnd
      | none => artLawFindFrom s f (p + 1)

def artLawFindAll (s : List Char) : List ArtMatch :=
  artLawFindFrom s (s.length + 1) 0

/-! ## The `CHAPTER` and `ROMAN` patterns

`CHAPTER`: `(?:^|\n)\s*((?:Chương|CHƯƠNG|Phần|PHẦN|Mục|MỤC|Tiết|TIẾT)\s+`
`(?:[IVXLCDM]+|\d+))\s*[\.\:\-]?\s*([^\r\n]*?)(?=\n|$)`, `IGNORECASE|MULTILINE`.

`ROMAN`: `(?:^|\n)\s*([IVXLCDM]+)\s*\.\s*([^\r\n]*?)(?=\n|$)`,
`IGNORECASE|MULTILINE`.

The lazy title group `[^\r\n]*?` with lookahead `(?=\n|$)` extends to the next
newline (or the end); it cannot cross a carriage return, and a carriage return
before the next newline makes the whole match attempt fail. -/

/-- End of a `[^\r\n]*?(?=\n|$)` title starting at `i`: the next newline or the
end of text, or `none` if a `'\r'` intervenes. -/
def lineEnd (s : List Char) : Nat → Nat → Option Nat
  | 0, _ => none
  | f + 1, i =>
    match charAt s i with
    | none => some i
    | some '\n' => some i
    | some '\r' => none
    | some _ => lineEnd s f (i + 1)

structure ChapMatch where
  mStart : Nat
  mEnd : Nat
  label : List Char
  title : List Char
deriving DecidableEq

def chapterKeywords : List (List Char) :=
  ["chương".data, "phần".data, "mục".data, "tiết".data]

/-- Attempt a `CHAPTER` match starting exactly at position `p`. -/
def chapterMatchAt (s : List Char) (p : Nat) : Option ChapMatch :=
  if anchorOk s p then
    let q := skipWsPos s p
    match chapterKeywords.find? (fun kw => litAt s q kw) with
    | some kw =>
      let a := q + kw.length
      let b := skipWsPos s a
      if a < b then
        let numEnd :=
          if (match charAt s b with
              | some c => isRomanCI c
              | none => false) then skipPos isRomanCI s b
          else skipDigitsPos s b
        if b < numEnd then
          let j1 := skipWsPos s numEnd
          let j2 := match charAt s j1 with
            | some c => if c = '.' || c = ':' || c = '-' then j1 + 1 else j1
            | none => j1
          let j3 := skipWsPos s j2
          match lineEnd s (s.length + 1) j3 with
          | some e => some ⟨p, e, seg s q numEnd, seg s j3 e⟩
          | none => none
        else none
      else none
    | none => none
  else none

def chapterFindFrom (s : List Char) : Nat → Nat → List ChapMatch
  | 0, _ => []
  | f + 1, p =>
    if s.length < p then []
    else match chapterMatchAt s p with
      | some m => m :: chapterFindFrom s f m.mEnd
      | none => chapterFindFrom s f (p + 1)

def chapterFindAll (s : List Char) : List ChapMatch :=
  chapterFindFrom s (s.length + 1) 0

/-- Attempt a `ROMAN` match starting exactly at position `p`. -/
def romanMatchAt (s : List Char) (p : Nat) : Option ChapMatch :=
  if anchorOk s p then
    let q := skipWsPos s p
    let r := skipPos isRomanCI s q
    if q < r then
      let w := skipWsPos s r
      if charIs s w '.' then
        let j3 := skipWsPos s (w + 1)
        match lineEnd s (s.length + 1) j3 with
        | some e => some ⟨p, e, seg s q r, seg s j3 e⟩
        | none => none
      else none
    else none
  else none

def romanFindFrom (s : List Char) : Nat → Nat → List ChapMatch
  | 0, _ => []
  | f + 1, p =>
    if s.length < p then []
    else match romanMatchAt s p with
      | some m => m :: romanFindFrom s f m.mEnd
      | none => romanFindFrom s f (p + 1)

def romanFindAll (s : List Char) : List ChapMatch :=
  romanFindFrom s (s.length + 1) 0

/-! ## The `CLAUSE`, `POINT` and `SUBPOINT` patterns

`CLAUSE`: `(?:^|\n)\s*(\d+)\s*[\.\)]\s+([^\n]*?)(?=(?:\n\s*\d+\s*[\.\)]|`
`\n\s*[a-z]\s*\)|\n\s*(?:Điều|Chương|Phần|Mục|Tiết)|\Z))`, `MULTILINE|DOTALL`
(no `IGNORECASE`: the letter class and the keywords are case-sensitive here).

The greedy `\s+` before the lazy body group backtracks from its maximal
extent down to a single character; for each extent the body runs to the next
newline, succeeding iff one of the `\n…` lookahead alternatives matches there,
or to the end of the text (the `\Z` alternative) if no newline follows. -/

/-- `\n\s*\d+\s*[\.\)]` at a newline position `nl`. -/
def numItemAfterNl (s : List Char) (nl : Nat) : Bool :=
  let a := skipWsPos s (nl + 1)
  let d := skipDigitsPos s a
  decide (a < d) &&
    (let w := skipWsPos s d
     charIs s w '.' || charIs s w ')')

/-- `\n\s*[a-z]\s*\)` at a newline position `nl`. -/
def letterItemAfterNl (s : List Char) (nl : Nat) : Bool :=
  let a := skipWsPos s (nl + 1)
  match charAt s a with
  | some c =>
    ('a' ≤ c && c ≤ 'z') &&
      (let w := skipWsPos s (a + 1)
       charIs s w ')')
  | none => false

/-- `\n\s*(?:Điều|Chương|Phần|Mục|Tiết)` (case-sensitive) at newline `nl`. -/
def keywordAfterNl (s : List Char) (nl : Nat) : Bool :=
  let a := skipWsPos s (nl + 1)
  exactAt s a "Điều".data || exactAt s a "Chương".data || exactAt s a "Phần".data ||
    exactAt s a "Mục".data || exactAt s a "Tiết".data

/-- The newline-anchored lookahead alternatives of `CLAUSE` and `POINT`. -/
def clauseBoundaryNl (s : List Char) (nl : Nat) : Bool :=
  numItemAfterNl s nl || letterItemAfterNl s nl || keywordAfterNl s nl

/-- The newline-anchored lookahead alternatives of `SUBPOINT`
(`\n\s*-|\n\s*[a-z]\s*\)|\n\s*\d+\s*[\.\)]`). -/
def subBoundaryNl (s : List Char) (nl : Nat) : Bool :=
  (let a := skipWsPos s (nl + 1); charIs s a '-') ||
    letterItemAfterNl s nl || numItemAfterNl s nl

/-- Resolve a lazy `[^\n]*?` body group with a newline-or-end lookahead:
try body start positions from `m` (the maximal `\s+` extent) down, `f` tries
in all; for each start the unique candidate stop is the next newline
(accepted iff `boundary` holds there) or the end of text. -/
def bodySearch (boundary : List Char → Nat → Bool) (s : List Char) :
    Nat → Nat → Option (Nat × Nat)
  | 0, _ => none
  | f + 1, start =>
    (match nextNl s start with
     | none => some (start, s.length)
     | some nl => if boundary s nl then some (start, nl) else none) <|>
      bodySearch boundary s f (start - 1)

/-- One `CLAUSE`/`POINT`/`SUBPOINT` match: start/end offsets, group 1 (the
number, letter or dash marker) and group 2 (the raw body). -/
structure ItemMatch where
  mStart : Nat
  mEnd : Nat
  marker : List Char
  body : List Char
deriving DecidableEq

/-- Attempt a `CLAUSE` match starting exactly at position `p`. -/
def clauseMatchAt (s : List Char) (p : Nat) : Option ItemMatch :=
  if anchorOk s p then
    let q := skipWsPos s p
    let d := skipDigitsPos s q
    if q < d then
      let w := skipWsPos s d
      if charIs s w '.' || charIs s w ')' then
        let ap := w + 1
        let m := skipWsPos s ap
        if ap < m then
          match bodySearch clauseBoundaryNl s (m - ap) m with
          | some be => some ⟨p, be.2, seg s q d, seg s be.1 be.2⟩
          | none => none
        else none
      else none
    else none
  else none

def clauseFindFrom (s : List Char) : Nat → Nat → List ItemMatch
  | 0, _ => []
  | f + 1, p =>
    if s.length < p then []
    else match clauseMatchAt s p with
      | some m => m :: clauseFindFrom s f m.mEnd
      | none => clauseFindFrom s f (p + 1)

def clauseFindAll (s : List Char) : List ItemMatch :=
  clauseFindFrom s (s.length + 1) 0

/-- Attempt a `POINT` match starting exactly at position `p`. -/
def pointMatchAt (s : List Char) (p : Nat) : Option ItemMatch :=
  if anchorOk s p then
    let q := skipWsPos s p
    match charAt s q with
    | some c =>
      if 'a' ≤ c && c ≤ 'z' then
        let w := skipWsPos s (q + 1)
        if charIs s w ')' then
          let ap := w + 1
          let m := skipWsPos s ap
          if ap < m then
            match bodySearch clauseBoundaryNl s (m - ap) m with
            | some be => some ⟨p, be.2, [c], seg s be.1 be.2⟩
            | none => none
          else none
        else none
      else none
    | none => none
  else none

def pointFindFrom (s : List Char) : Nat → Nat → List ItemMatch
  | 0, _ => []
  | f + 1, p =>
    if s.length < p then []
    else match pointMatchAt s p with
      | some m => m :: pointFindFrom s f m.mEnd
      | none => pointFindFrom s f (p + 1)

def pointFindAll (s : List Char) : List ItemMatch :=
  pointFindFrom s (s.length + 1) 0

/-- Attempt a `SUBPOINT` match starting exactly at position `p`. -/
def subpointMatchAt (s : List Char) (p : Nat) : Option ItemMatch :=
  if anchorOk s p then
    let q := skipWsPos s p
    if charIs s q '-' then
      let ap := q + 1
      let m := skipWsPos s ap
      if ap < m then
        match bodySearch subBoundaryNl s (m - ap) m with
        | some be => some ⟨p, be.2, ['-'], seg s be.1 be.2⟩
        | none => none
      else none
    else none
  else none

def subpointFindFrom (s : List Char) : Nat → Nat → List ItemMatch
  | 0, _ => []
  | f + 1, p =>
    if s.length < p then []
    else match subpointMatchAt s p with
      | some m => m :: subpointFindFrom s f m.mEnd
      | none => subpointFindFrom s f (p + 1)

def subpointFindAll (s : List Char) : List ItemMatch :=
  subpointFindFrom s (s.length + 1) 0

/-! ## The data model

Python dictionaries with a varying key set are modelled as records with
`Option` fields; a missing key is `none`.  `SubPoint`, `Point` and `Clause`
mirror the dictionaries built by `_parse_points_advanced` and
`_parse_clauses_advanced`; `Article` mirrors the article dictionaries, which
may carry `"article"`, `"chapter"`/`"chapter_title"` and/or `"section"` keys.
`SegResult` mirrors the dictionary returned by `segment` (the inner
strategy functions return it with `validation`/`document_type` still unset). -/

structure SubPoint where
  marker : List Char
  text : List Char
deriving DecidableEq

structure Point where
  letter : List Char
  text : List Char
  subPoints : List SubPoint
deriving DecidableEq

structure Clause where
  no : List Char
  text : List Char
  points : List Point
deriving DecidableEq

/-- An article dictionary.  `sect` models the `"section"` key (`section` is a
Lean keyword); `chapterTitle` models `"chapter_title"`. -/
structure Article where
  article : Option (List Char) := none
  chapter : Option (List Char) := none
  chapterTitle : Option (List Char) := none
  sect : Option (List Char) := none
  title : Option (List Char) := none
  clauses : List Clause := []
deriving DecidableEq

/-- The `stats` sub-dictionary of `_validate_segmentation`.  The Python float
`preservation_ratio` is modelled as an exact rational. -/
structure SegStats where
  originalLength : Nat
  segmentedLength : Nat
  preservationRatio : Rat
  totalArticles : Nat
  totalClauses : Nat
  totalPoints : Nat
deriving DecidableEq

/-- The `validation` dictionary.  The early-return validation for an empty
document has no `stats` key, hence the `Option`. -/
structure Validation where
  status : List Char
  issues : List (List Char)
  stats : Option SegStats := none
deriving DecidableEq

/-- The dictionary returned by `segment` and by the per-type strategy
functions. -/
structure SegResult where
  articles : List Article
  strategyUsed : Option (List Char) := none
  validation : Option Validation := none
  documentType : Option (List Char) := none
deriving DecidableEq

/-- Optional segmentation metadata (`doc_meta` with `title`/`number`). -/
structure DocMeta where
  title : List Char
  number : List Char
deriving DecidableEq

/-! ## `_normalize_text` -/

/-- Python `str.strip()`. -/
def trim (s : List Char) : List Char :=
  ((s.dropWhile isWs).reverse.dropWhile isWs).reverse

/-- `re.sub(r'\r\n', '\n', text)`. -/
def replCrLf : List Char → List Char
  | [] => []
  | '\r' :: '\n' :: t => '\n' :: replCrLf t
  | c :: t => c :: replCrLf t

/-- In a whitespace run starting with a newline: `some k` with `k` the offset
just past the run's last newline, provided the run contains at least three
newlines (the extent matched by greedy `\n\s*\n\s*\n`). -/
def tripleNlSplit (t : List Char) : Option Nat :=
  let run := t.takeWhile isWs
  if 3 ≤ (run.filter (fun c => c = '\n')).length then
    some (run.length - (run.reverse.takeWhile (fun c => c ≠ '\n')).length)
  else none

/-- `re.sub(r'\n\s*\n\s*\n', '\n\n', text)`: each maximal whitespace run
containing at least three newlines is matched from its first through its last
newline and replaced by two newlines. -/
def collapseTripleNl : Nat → List Char → List Char
  | 0, t => t
  | f + 1, t =>
    match t with
    | [] => []
    | c :: rest =>
      if c = '\n' then
        match tripleNlSplit (c :: rest) with
        | some k => '\n' :: '\n' :: collapseTripleNl f ((c :: rest).drop k)
        | none => c :: collapseTripleNl f rest
      else c :: collapseTripleNl f rest

/-- `re.sub(r'[ \t]+', ' ', text)`. -/
def collapseSpaces : Nat → List Char → List Char
  | 0, t => t
  | _ + 1, [] => []
  | f + 1, c :: t =>
    if c = ' ' || c = '\t' then
      ' ' :: collapseSpaces f (t.dropWhile (fun d => d = ' ' || d = '\t'))
    else c :: collapseSpaces f t

/-- `_normalize_text`. -/
def normalizeText (text : List Char) : List Char :=
  let t1 := trim text
  let t2 := (replCrLf t1).map (fun c => if c = '\r' then '\n' else c)
  let t3 := collapseTripleNl t2.length t2
  collapseSpaces t3.length t3

/-! ## `_detect_document_type` -/

/-- `DOC_TYPE_PATTERNS`, in insertion order, as case-insensitive search
functions.  Python uppercases the searched text first; since the patterns are
applied case-insensitively this is modelled by folded search on the raw
text. -/
def docTypePatterns : List (List Char × (List Char → Bool)) :=
  [("law".data, fun t => containsFold t "luật".data || containsFold t "law".data),
   ("decree".data, fun t => containsGap t "nghị".data "định".data || containsFold t "decree".data),
   ("circular".data, fun t => containsGap t "thông".data "tư".data || containsFold t "circular".data),
   ("decision".data, fun t => containsGap t "quyết".data "định".data || containsFold t "decision".data),
   ("directive".data, fun t => containsGap t "chỉ".data "thị".data || containsFold t "directive".data),
   ("instruction".data, fun t => containsGap t "hướng".data "dẫn".data || containsFold t "instruction".data)]

/-- The first pattern matching the metadata title or number, if any. -/
def metaHit (m : DocMeta) : Option (List Char) :=
  (docTypePatterns.find? (fun p => p.2 m.title || p.2 m.number)).map Prod.fst

/-- The first pattern matching the first 1000 characters of the text. -/
def contentHit (text : List Char) : Option (List Char) :=
  (docTypePatterns.find? (fun p => p.2 (text.take 1000))).map Prod.fst

/-- `_detect_document_type`. -/
def detectDocumentType (text : List Char) (docMeta : Option DocMeta) : List Char :=
  match docMeta with
  | some m =>
    match metaHit m with
    | some name => name
    | none =>
      match contentHit text with
      | some name => name
      | none => "generic".data
  | none =>
    match contentHit text with
    | some name => name
    | none => "generic".data

/-! ## Clause and point parsing -/

/-- `_parse_points_advanced`. -/
def parsePointsAdvanced (content : List Char) : List Point :=
  (pointFindAll content).map (fun m =>
    let text := trim m.body
    { letter := m.marker, text := text,
      subPoints := (subpointFindAll text).map (fun sm => ⟨sm.marker, trim sm.body⟩) })

/-- The inline `re.match(r'^(\d+)\s*[\.\)]\s+(.+)', line)` used by
`_parse_clauses_advanced` (strategy 2) and `_segment_fallback_advanced`;
returns the digit group and the rest of the line. -/
def lineClauseMatch (line : List Char) : Option (List Char × List Char) :=
  let d := countWhile Char.isDigit line
  if 0 < d then
    let rest1 := line.drop d
    let w1 := countWhile isWs rest1
    match (rest1.drop w1).head? with
    | some c =>
      if c = '.' || c = ')' then
        let rest2 := rest1.drop (w1 + 1)
        let w2 := countWhile isWs rest2
        if 0 < w2 && w2 < rest2.length then some (line.take d, rest2.drop w2)
        else none
      else none
    | none => none
  else none

/-- Python `text.split('\n')`. -/
def splitNl : List Char → List (List Char)
  | [] => [[]]
  | '\n' :: t => [] :: splitNl t
  | c :: t =>
    match splitNl t with
    | [] => [[c]]
    | l :: ls => (c :: l) :: ls

/-- Close a clause accumulated by the line loop: points are parsed from its
final text. -/
def closeClause (no text : List Char) : Clause :=
  ⟨no, text, parsePointsAdvanced text⟩

/-- The line-by-line loop of `_parse_clauses_advanced` (strategy 2); the
state is the currently open `(no, text)` pair, if any. -/
def clauseLineLoop : List (List Char) → Option (List Char × List Char) → List Clause
  | [], none => []
  | [], some (no, tx) => [closeClause no tx]
  | l :: rest, cur =>
    let line := trim l
    if line = [] then clauseLineLoop rest cur
    else
      match lineClauseMatch line with
      | some (num, body) =>
        (match cur with
         | none => []
         | some (no, tx) => [closeClause no tx]) ++ clauseLineLoop rest (some (num, body))
      | none =>
        match cur with
        | some (no, tx) => clauseLineLoop rest (some (no, tx ++ ' ' :: line))
        | none => clauseLineLoop rest (some ("1".data, line))

/-- `_parse_clauses_advanced`. -/
def parseClausesAdvanced (content : List Char) : List Clause :=
  if content = [] then []
  else
    let cms := clauseFindAll content
    if cms ≠ [] then
      cms.map (fun m =>
        let clauseText := trim m.body
        { no := m.marker, text := clauseText, points := parsePointsAdvanced clauseText })
    else
      let clauses := clauseLineLoop (splitNl content) none
      if clauses = [] && content ≠ [] then [⟨"1".data, content, []⟩]
      else clauses

/-! ## Segmentation strategies -/

/-- `_segment_by_dieu`: one article per `ART_LAW` match; the content runs from
the match's end to the next match's start (or the end of the text). -/
def segmentByDieu (text : List Char) : List ArtMatch → List Article
  | [] => []
  | m :: rest =>
    let endPos := match rest with
      | [] => text.length
      | m2 :: _ => m2.mStart
    let content := trim (seg text m.mEnd endPos)
    let clauses := parseClausesAdvanced content
    let clauses := if clauses = [] && content ≠ [] then [⟨"1".data, content, []⟩] else clauses
    { article := some ("Điều ".data ++ m.num), title := some (trim m.title),
      clauses := clauses } :: segmentByDieu text rest

/-- `_segment_by_chapters_advanced`. -/
def segmentByChaptersAdvanced (text : List Char) : List ChapMatch → List Article
  | [] => []
  | m :: rest =>
    let endPos := match rest with
      | [] => text.length
      | m2 :: _ => m2.mStart
    let content := trim (seg text m.mEnd endPos)
    let dieuInChapter := artLawFindAll content
    (if 1 ≤ dieuInChapter.length then
      (segmentByDieu content dieuInChapter).map (fun a =>
        { a with chapter := some m.label, chapterTitle := some (trim m.title) })
    else
      let clauses := parseClausesAdvanced content
      let clauses := if clauses = [] && content ≠ [] then [⟨"1".data, content, []⟩] else clauses
      [{ chapter := some m.label, title := some (trim m.title), clauses := clauses }]) ++
      segmentByChaptersAdvanced text rest

/-- `_segment_by_roman_advanced`. -/
def segmentByRomanAdvanced (text : List Char) : List ChapMatch → List Article
  | [] => []
  | m :: rest =>
    let endPos := match rest with
      | [] => text.length
      | m2 :: _ => m2.mStart
    let content := trim (seg text m.mEnd endPos)
    let clauses := parseClausesAdvanced content
    let clauses := if clauses = [] && content ≠ [] then [⟨"1".data, content, []⟩] else clauses
    { sect := some m.label, title := some (trim m.title), clauses := clauses } ::
      segmentByRomanAdvanced text rest

/-! ## `_segment_fallback_advanced` -/

/-- Header pattern `^[IVXLCDM]+\.\s+.+` (uppercase Roman numerals only). -/
def isRomanHeader (line : List Char) : Bool :=
  let r := countWhile isRomanU line
  0 < r && charIs line r '.' &&
    (let rest := line.drop (r + 1)
     let w := countWhile isWs rest
     0 < w && decide (w < rest.length))

/-- Header pattern `^\d+\.\s+[A-ZÀ…Đ].+`. -/
def isNumberedHeader (line : List Char) : Bool :=
  let d := countWhile Char.isDigit line
  0 < d && charIs line d '.' &&
    (let rest := line.drop (d + 1)
     let w := countWhile isWs rest
     0 < w &&
       (match (rest.drop w).head? with
        | some c => isUpperViClass c && decide (w + 1 < rest.length)
        | none => false))

/-- Header pattern `^[A-ZÀ…Đ\s]{10,}$` (an all-caps line of length ≥ 10). -/
def isAllCapsHeader (line : List Char) : Bool :=
  decide (10 ≤ line.length) && line.all (fun c => isUpperViClass c || isWs c)

/-- The structural keyword list of `_segment_fallback_advanced`. -/
def fallbackKeywords : List (List Char) :=
  ["MỤC TIÊU".data, "YÊU CẦU".data, "NHIỆM VỤ".data, "QUY ĐỊNH".data,
   "NGUYÊN TẮC".data, "PHẠM VI".data, "ĐỐI TƯỢNG".data, "GIẢI THÍCH".data,
   "THI HÀNH".data]

/-- The header classification of `_segment_fallback_advanced`: one of the
three header patterns, or (for lines shorter than 100 characters) a structural
keyword occurring in the uppercased line. -/
def isHeaderLine (line : List Char) : Bool :=
  isRomanHeader line || isNumberedHeader line || isAllCapsHeader line ||
    (decide (line.length < 100) &&
      fallbackKeywords.any (fun kw => containsSub (line.map upperVi) kw))

/-- The `structured_lines` list: stripped non-empty lines tagged as header or
content. -/
def structuredLines (text : List Char) : List (Bool × List Char) :=
  (splitNl text).filterMap (fun l =>
    let line := trim l
    if line = [] then none else some (isHeaderLine line, line))

/-- `+= " " + line` on the text of the most recently opened clause. -/
def appendToLastClause (cls : List Clause) (line : List Char) : List Clause :=
  match cls with
  | [] => []
  | [c] => [{ c with text := c.text ++ ' ' :: line }]
  | c :: rest => c :: appendToLastClause rest line

/-- The grouping loop of `_segment_fallback_advanced`: `cur` is the current
article (if any) and `acc` the articles saved so far (needed for the
`Section_{len(articles)+1}` names). -/
def fallbackGroup : List (Bool × List Char) → Option Article → List Article → List Article
  | [], cur, acc =>
    acc ++ (match cur with
            | some a => if a.clauses ≠ [] then [a] else []
            | none => [])
  | (isH, line) :: rest, cur, acc =>
    if isH then
      let acc2 := acc ++ (match cur with
                          | some a => if a.clauses ≠ [] then [a] else []
                          | none => [])
      fallbackGroup rest
        (some { sect := some ("Section_".data ++ (Nat.repr (acc2.length + 1)).data),
                title := some line, clauses := [] }) acc2
    else
      let a := match cur with
        | some a => a
        | none => { sect := some "General".data, title := some "Document Content".data,
                    clauses := [] }
      match lineClauseMatch line with
      | some (num, body) =>
        fallbackGroup rest (some { a with clauses := a.clauses ++ [⟨num, body, []⟩] }) acc
      | none =>
        if a.clauses ≠ [] then
          fallbackGroup rest (some { a with clauses := appendToLastClause a.clauses line }) acc
        else
          fallbackGroup rest (some { a with clauses := [⟨"1".data, line, []⟩] }) acc

/-- The article list produced by the grouping loop, before the ultimate
fallback. -/
def fallbackArticlesRaw (text : List Char) : List Article :=
  fallbackGroup (structuredLines text) none []

/-- `_segment_fallback_advanced`, including the ultimate fallback that wraps
the entire text as a single article with a single clause. -/
def segmentFallbackAdvanced (text : List Char) : List Article :=
  let articles := fallbackArticlesRaw text
  if articles = [] then
    [{ sect := some "Document".data, title := some "Full Content".data,
       clauses := [⟨"1".data, text, []⟩] }]
  else articles

/-! ## The per-type strategy cascades -/

/-- The chapter loop inside `_segment_law_document` (unlike
`_segment_by_chapters_advanced` it appends a chapter-level article even when
no clauses were parsed, and uses plain `_parse_clauses_advanced`). -/
def lawChapterLoop (text : List Char) : List ChapMatch → List Article
  | [] => []
  | m :: rest =>
    let endPos := match rest with
      | [] => text.length
      | m2 :: _ => m2.mStart
    let content := trim (seg text m.mEnd endPos)
    let dieuMatches := artLawFindAll content
    (if dieuMatches ≠ [] then
      (segmentByDieu content dieuMatches).map (fun a =>
        { a with chapter := some m.label, chapterTitle := some (trim m.title) })
    else
      [{ chapter := some m.label, title := some (trim m.title),
         clauses := parseClausesAdvanced content }]) ++ lawChapterLoop text rest

/-- `_segment_law_document`. -/
def segmentLawDocument (text : List Char) : SegResult :=
  let dieuMatches := artLawFindAll text
  if 2 ≤ dieuMatches.length then
    { articles := segmentByDieu text dieuMatches, strategyUsed := some "dieu".data }
  else
    let chapterMatches := chapterFindAll text
    if chapterMatches ≠ [] then
      { articles := lawChapterLoop text chapterMatches }
    else
      let dieuMatches2 := artLawFindAll text
      if dieuMatches2 ≠ [] then { articles := segmentByDieu text dieuMatches2 }
      else { articles := segmentFallbackAdvanced text }

/-- `_segment_decree_document`. -/
def segmentDecreeDocument (text : List Char) : SegResult :=
  let dieuMatches := artLawFindAll text
  if 1 ≤ dieuMatches.length then
    { articles := segmentByDieu text dieuMatches }
  else
    let chapterMatches := chapterFindAll text
    if chapterMatches ≠ [] then
      { articles := segmentByChaptersAdvanced text chapterMatches }
    else { articles := segmentFallbackAdvanced text }

/-- `_segment_circular_document`. -/
def segmentCircularDocument (text : List Char) : SegResult :=
  let chapterMatches := chapterFindAll text
  if chapterMatches ≠ [] then
    { articles := segmentByChaptersAdvanced text chapterMatches }
  else
    let dieuMatches := artLawFindAll text
    if dieuMatches ≠ [] then { articles := segmentByDieu text dieuMatches }
    else
      let romanMatches := romanFindAll text
      if 2 ≤ romanMatches.length then
        { articles := segmentByRomanAdvanced text romanMatches }
      else { articles := segmentFallbackAdvanced text }

/-- `_try_segment_by_chapters`. -/
def trySegmentByChapters (text : List Char) : List Article :=
  let chapterMatches := chapterFindAll text
  if chapterMatches ≠ [] then segmentByChaptersAdvanced text chapterMatches else []

/-- `_try_segment_by_sections` (a stub in the source: always empty). -/
def trySegmentBySections (_text : List Char) : List Article := []

/-- `_try_segment_by_roman`. -/
def trySegmentByRoman (text : List Char) : List Article :=
  let romanMatches := romanFindAll text
  if 2 ≤ romanMatches.length then segmentByRomanAdvanced text romanMatches else []

/-- `_segment_generic_document`: the Điều stage (≥ 2 matches), then the
ordered strategy list `chapters`, `sections`, `roman`, `fallback`, then the
ultimate fallback; the first strategy returning a non-empty list wins. -/
def segmentGenericDocument (text : List Char) : SegResult :=
  let dieuMatches := artLawFindAll text
  if 2 ≤ dieuMatches.length then
    { articles := segmentByDieu text dieuMatches, strategyUsed := some "dieu".data }
  else
    let r1 := trySegmentByChapters text
    if r1 ≠ [] then { articles := r1, strategyUsed := some "chapters".data }
    else
      let r2 := trySegmentBySections text
      if r2 ≠ [] then { articles := r2, strategyUsed := some "sections".data }
      else
        let r3 := trySegmentByRoman text
        if r3 ≠ [] then { articles := r3, strategyUsed := some "roman".data }
        else
          let r4 := segmentFallbackAdvanced text
          if r4 ≠ [] then { articles := r4, strategyUsed := some "fallback".data }
          else
            { articles := segmentFallbackAdvanced text,
              strategyUsed := some "ultimate_fallback".data }

/-! ## `_validate_segmentation` -/

def lowPreservationMsg : List Char := "Low content preservation".data
def duplicationMsg : List Char := "Content duplication detected".data
def noArticlesMsg : List Char := "No articles found".data

/-- `f"Very long clause detected ({len} chars)"`. -/
def veryLongMsg (n : Nat) : List Char :=
  "Very long clause detected (".data ++ (Nat.repr n).data ++ " chars)".data

def segmentedLength (articles : List Article) : Nat :=
  (articles.map (fun a => (a.clauses.map (fun c => c.text.length)).sum)).sum

def totalClauseCount (articles : List Article) : Nat :=
  (articles.map (fun a => a.clauses.length)).sum

def totalPointCount (articles : List Article) : Nat :=
  (articles.map (fun a => (a.clauses.map (fun c => c.points.length)).sum)).sum

/-- `preservation_ratio`, as an exact rational (Python float division). -/
def preservationRatio (articles : List Article) (originalLength : Nat) : Rat :=
  if 0 < originalLength then mkRat (segmentedLength articles) originalLength else 0

/-- The "very long clause" issue messages, in article/clause order. -/
def longClauseIssues (articles : List Article) : List (List Char) :=
  articles.flatMap (fun a =>
    a.clauses.filterMap (fun c =>
      if 2000 < c.text.length then some (veryLongMsg c.text.length) else none))

/-- `_validate_segmentation` (the `original_text` argument is unused in the
source as well; only the article list and the original length matter). -/
def validateSegmentation (_originalText : List Char) (result : SegResult)
    (originalLength : Nat) : Validation :=
  let articles := result.articles
  let ratio := preservationRatio articles originalLength
  let issues1 := if ratio < mkRat 7 10 then [lowPreservationMsg] else []
  let status1 := if ratio < mkRat 7 10 then "warning".data else "success".data
  let issues2 := issues1 ++ (if mkRat 13 10 < ratio then [duplicationMsg] else [])
  let status2 := if mkRat 13 10 < ratio then "warning".data else status1
  let issues3 := issues2 ++ (if articles.length = 0 then [noArticlesMsg] else [])
  let status3 := if articles.length = 0 then "error".data else status2
  let longs := longClauseIssues articles
  { status := if longs ≠ [] then "warning".data else status3,
    issues := issues3 ++ longs,
    stats := some
      { originalLength := originalLength,
        segmentedLength := segmentedLength articles,
        preservationRatio := ratio,
        totalArticles := articles.length,
        totalClauses := totalClauseCount articles,
        totalPoints := totalPointCount articles } }

/-! ## `segment` -/

/-- `segment(doc_text, doc_meta)`.  The empty string is Python-falsy, so it
takes the early return with the `"empty"` validation (no stats, no
`document_type`, no `strategy_used`). -/
def segment (docText : List Char) (docMeta : Option DocMeta) : SegResult :=
  if docText = [] then
    { articles := [],
      validation := some { status := "empty".data, issues := ["Empty document".data] } }
  else
    let text := normalizeText docText
    let originalLength := text.length
    let docType := detectDocumentType text docMeta
    let result :=
      if docType = "law".data then segmentLawDocument text
      else if docType = "decree".data then segmentDecreeDocument text
      else if docType = "circular".data then segmentCircularDocument text
      else segmentGenericDocument text
    { result with
      validation := some (validateSegmentation text result originalLength),
      documentType := some docType }

/-! ## The structural differ (`preprocess/diff_engine.py`) -/

/-- Collapse every whitespace run to a single space (`re.sub(r"\s+", " ", s)`,
applied after `strip`). -/
def collapseAllWs : Nat → List Char → List Char
  | 0, t => t
  | _ + 1, [] => []
  | f + 1, c :: t =>
    if isWs c then ' ' :: collapseAllWs f (t.dropWhile isWs)
    else c :: collapseAllWs f t

/-- `_norm_text`. -/
def normText (s : List Char) : List Char :=
  let t := trim s
  collapseAllWs t.length t

/-- Python truthiness of an optional string value. -/
def truthy (o : Option (List Char)) : Bool :=
  match o with
  | some s => s ≠ []
  | none => false

/-- `_article_id`. -/
def articleId (a : Article) : List Char :=
  if truthy a.article then
    let pfx :=
      if truthy a.chapter then a.chapter.getD [] ++ " - ".data
      else if truthy a.sect then a.sect.getD [] ++ " - ".data
      else []
    pfx ++ a.article.getD []
  else if truthy a.chapter then a.chapter.getD []
  else if truthy a.sect then "Section ".data ++ a.sect.getD []
  else "Unknown".data

/-- `_clauses_of`: the auto counter advances only when it is consumed (a
clause with a falsy `no` key). -/
def clausesOfAux : List Clause → Nat → List (List Char × List Char)
  | [], _ => []
  | c :: rest, auto =>
    if c.no ≠ [] then (c.no, normText c.text) :: clausesOfAux rest auto
    else ((Nat.repr auto).data, normText c.text) :: clausesOfAux rest (auto + 1)

def clausesOf (a : Article) : List (List Char × List Char) :=
  clausesOfAux a.clauses 1

/-- Insertion into a Python-dict model: an existing key is updated in place
(keeping its position), a new key is appended. -/
def dinsert {α β : Type} [DecidableEq α] : List (α × β) → α → β → List (α × β)
  | [], k, v => [(k, v)]
  | (k2, v2) :: t, k, v =>
    if k2 = k then (k, v) :: t else (k2, v2) :: dinsert t k v

/-- Dictionary lookup. -/
def dlookup {α β : Type} [DecidableEq α] : List (α × β) → α → Option β
  | [], _ => none
  | (k2, v2) :: t, k => if k2 = k then some v2 else dlookup t k

/-- The composite-key index type: `(article_id, clause_no) ↦ normalized text`. -/
abbrev KV : Type := List ((List Char × List Char) × List Char)

def kvInsertClauses (aid : List Char) :
    List (List Char × List Char) → KV → KV
  | [], m => m
  | p :: rest, m => kvInsertClauses aid rest (dinsert m (aid, p.1) p.2)

def kvIndexAux : List Article → KV → KV
  | [], m => m
  | a :: rest, m => kvIndexAux rest (kvInsertClauses (articleId a) (clausesOf a) m)

/-- `_kv_index`. -/
def kvIndex (struct : SegResult) : KV :=
  kvIndexAux struct.articles []

/-- The `f"{k[0]}.{k[1]}"` identifier of a change record. -/
def mkId (k : List Char × List Char) : List Char :=
  k.1 ++ '.' :: k.2

/-- A change record.  `fromTxt`/`toTxt` model the `"from"`/`"to"` keys
(`from` is a Lean keyword); `added` carries only `toTxt`, `deleted` only
`fromTxt`, `modified` both. -/
structure ChangeRecord where
  level : List Char
  id : List Char
  change : List Char
  fromTxt : Option (List Char) := none
  toTxt : Option (List Char) := none
deriving DecidableEq

/-- `diff_articles`: added/modified records in the revised index's insertion
order, then deleted records in the base index's insertion order. -/
def diff_articles (baseStruct newStruct : SegResult) : List ChangeRecord :=
  let base := kvIndex baseStruct
  let new := kvIndex newStruct
  (new.filterMap (fun kv =>
    match dlookup base kv.1 with
    | none =>
      some { level := "clause".data, id := mkId kv.1, change := "added".data,
             toTxt := some kv.2 }
    | some x =>
      if x ≠ kv.2 then
        some { level := "clause".data, id := mkId kv.1, change := "modified".data,
               fromTxt := some x, toTxt := some kv.2 }
      else none)) ++
    (base.filterMap (fun kv =>
      match dlookup new kv.1 with
      | none =>
        some { level := "clause".data, id := mkId kv.1, change := "deleted".data,
               fromTxt := some kv.2 }
      | some _ => none))

/-! ## Auxiliary definitions used by the verification -/

/-- The content-then-default tail of `_detect_document_type`: the first
pattern matching the text prefix, or `"generic"`. -/
def contentResolve (text : List Char) : List Char :=
  match contentHit text with
  | some name => name
  | none => "generic".data

/-- The sub-dictionary of a `_kv_index` result whose keys belong to one
article identifier. -/
def kvRestrict (y : List Char) (m : KV) : KV :=
  m.filter (fun kv => kv.1.1 = y)

/-- Concrete structures for the diff theorems: two versions of a two-article
document with distinct article labels, differing in the second article's
clause. -/
def isoArticleOne : Article :=
  { article := some "Điều 1".data, clauses := [⟨"1".data, "aaa".data, []⟩] }

def isoArticleTwo : Article :=
  { article := some "Điều 2".data, clauses := [⟨"1".data, "bbb".data, []⟩] }

def isoArticleTwoRev : Article :=
  { article := some "Điều 2".data, clauses := [⟨"1".data, "ccc".data, []⟩] }

def isoBase : SegResult := { articles := [isoArticleOne, isoArticleTwo] }

def isoRev : SegResult := { articles := [isoArticleOne, isoArticleTwoRev] }

def emptyStruct : SegResult := { articles := [] }

/-- Two *distinct* articles (different titles) sharing the article label
`"Điều 1"`, each with a clause of ordinal `"1"`. -/
def dupArticleOne : Article :=
  { article := some "Điều 1".data, title := some "One".data,
    clauses := [⟨"1".data, "xxx".data, []⟩] }

def dupArticleTwo : Article :=
  { article := some "Điều 1".data, title := some "Two".data,
    clauses := [⟨"1".data, "yyy".data, []⟩] }

def dupArticleTwoRev : Article :=
  { article := some "Điều 1".data, title := some "Two".data,
    clauses := [⟨"1".data, "zzz".data, []⟩] }

def dupBase : SegResult := { articles := [dupArticleOne, dupArticleTwo] }

def dupRev : SegResult := { articles := [dupArticleOne, dupArticleTwoRev] }

/-- A structure containing one clause of 2001 characters (for the overlong
clause validation). -/
def longClauseStruct : SegResult :=
  { articles := [{ article := some "Điều 1".data,
                   clauses := [⟨"1".data, List.replicate 2001 'a', []⟩] }] }

/-! ## Non-emptiness of every cascade stage -/

theorem segmentByDieu_length (text : List Char) (ms : List ArtMatch) :
    (segmentByDieu text ms).length = ms.length := by
  induction ms with
  | nil => rfl
  | cons m rest ih => simp only [segmentByDieu, List.length_cons, ih]

theorem segmentByDieu_ne_nil (text : List Char) (ms : List ArtMatch) (h : ms ≠ []) :
    segmentByDieu text ms ≠ [] := by
  intro hc
  have := congrArg List.length hc
  rw [segmentByDieu_length] at this
  exact h (List.length_eq_zero.mp this)

theorem segmentByChaptersAdvanced_ne_nil (text : List Char) (ms : List ChapMatch)
    (h : ms ≠ []) : segmentByChaptersAdvanced text ms ≠ [] := by
  cases ms with
  | nil => exact absurd rfl h
  | cons m rest =>
    simp only [segmentByChaptersAdvanced]
    intro hc
    rcases List.append_eq_nil.mp hc with ⟨h1, _⟩
    revert h1
    split
    · next hlen =>
      intro h1
      refine segmentByDieu_ne_nil _ _ (fun hc2 => ?_) (List.map_eq_nil_iff.mp h1)
      rw [hc2] at hlen
      simp at hlen
    · simp

theorem segmentByRomanAdvanced_ne_nil (text : List Char) (ms : List ChapMatch)
    (h : ms ≠ []) : segmentByRomanAdvanced text ms ≠ [] := by
  cases ms with
  | nil => exact absurd rfl h
  | cons m rest => simp [segmentByRomanAdvanced]

theorem lawChapterLoop_ne_nil (text : List Char) (ms : List ChapMatch) (h : ms ≠ []) :
    lawChapterLoop text ms ≠ [] := by
  cases ms with
  | nil => exact absurd rfl h
  | cons m rest =>
    simp only [lawChapterLoop]
    intro hc
    rcases List.append_eq_nil.mp hc with ⟨h1, _⟩
    revert h1
    split
    · next hne =>
      intro h1
      exact segmentByDieu_ne_nil _ _ hne (List.map_eq_nil_iff.mp h1)
    · simp

theorem segmentFallbackAdvanced_ne_nil (text : List Char) :
    segmentFallbackAdvanced text ≠ [] := by
  unfold segmentFallbackAdvanced
  by_cases h : fallbackArticlesRaw text = [] <;> simp [h]

theorem segmentLawDocument_ne_nil (text : List Char) :
    (segmentLawDocument text).articles ≠ [] := by
  unfold segmentLawDocument
  dsimp only
  split
  · next h =>
    exact segmentByDieu_ne_nil _ _ (fun hc => by rw [hc] at h; simp at h)
  · split
    · next h => exact lawChapterLoop_ne_nil _ _ h
    · split
      · next h => exact segmentByDieu_ne_nil _ _ h
      · exact segmentFallbackAdvanced_ne_nil _

theorem segmentDecreeDocument_ne_nil (text : List Char) :
    (segmentDecreeDocument text).articles ≠ [] := by
  unfold segmentDecreeDocument
  dsimp only
  split
  · next h =>
    exact segmentByDieu_ne_nil _ _ (fun hc => by rw [hc] at h; simp at h)
  · split
    · next h => exact segmentByChaptersAdvanced_ne_nil _ _ h
    · exact segmentFallbackAdvanced_ne_nil _

theorem segmentCircularDocument_ne_nil (text : List Char) :
    (segmentCircularDocument text).articles ≠ [] := by
  unfold segmentCircularDocument
  dsimp only
  split
  · next h => exact segmentByChaptersAdvanced_ne_nil _ _ h
  · split
    · next h => exact segmentByDieu_ne_nil _ _ h
    · split
      · next h =>
        exact segmentByRomanAdvanced_ne_nil _ _ (fun hc => by rw [hc] at h; simp at h)
      · exact segmentFallbackAdvanced_ne_nil _

theorem segmentGenericDocument_ne_nil (text : List Char) :
    (segmentGenericDocument text).articles ≠ [] := by
  unfold segmentGenericDocument
  dsimp only
  split
  · next h =>
    exact segmentByDieu_ne_nil _ _ (fun hc => by rw [hc] at h; simp at h)
  · split
    · next h => exact h
    · split
      · next h => exact h
      · split
        · next h => exact h
        · split
          · next h => exact h
          · exact segmentFallbackAdvanced_ne_nil _

/-- C1 — For every non-empty input text, `segment(text, meta)` returns a
structure whose `articles` sequence has length at least 1; and when the
fallback grouping detects no structure at all, `_segment_fallback_advanced`'s
ultimate fallback wraps the entire text as a single article containing a
single clause. -/
theorem segment_totality :
    (∀ (t : List Char) (m : Option DocMeta), t ≠ [] → 1 ≤ (segment t m).articles.length) ∧
    (∀ t : List Char, fallbackArticlesRaw t = [] →
      segmentFallbackAdvanced t =
        [{ sect := some "Document".data, title := some "Full Content".data,
           clauses := [⟨"1".data, t, []⟩] }]) := by
  constructor
  · intro t m ht
    rw [Nat.one_le_iff_ne_zero]
    intro hc
    have hnil := List.length_eq_zero.mp hc
    revert hnil
    unfold segment
    rw [if_neg ht]
    dsimp only
    split
    · exact segmentLawDocument_ne_nil _
    · split
      · exact segmentDecreeDocument_ne_nil _
      · split
        · exact segmentCircularDocument_ne_nil _
        · exact segmentGenericDocument_ne_nil _
  · intro t h
    simp [segmentFallbackAdvanced, h]

/-- Witness for C1 at concrete inputs. -/
theorem segment_totality_witness :
    ("X".data ≠ ([] : List Char) ∧ 1 ≤ (segment "X".data none).articles.length) ∧
    (fallbackArticlesRaw [] = [] ∧
      segmentFallbackAdvanced [] =
        [{ sect := some "Document".data, title := some "Full Content".data,
           clauses := [⟨"1".data, [], []⟩] }]) :=
  ⟨⟨by decide, segment_totality.1 "X".data none (by decide)⟩,
   ⟨by decide, segment_totality.2 [] (by decide)⟩⟩

/-- C2 — Segmenting `"Điều 1. Title A\nBody A\nĐiều 2. Title B\nBody B"`
yields exactly two articles labelled `"Điều 1"`/`"Điều 2"` with titles
`"Title A"`/`"Title B"`, each with one clause holding that article's body
line (produced by the `dieu` strategy). -/
theorem dieu_two_articles_example :
    (segment "Điều 1. Title A\nBody A\nĐiều 2. Title B\nBody B".data none).articles =
      [{ article := some "Điều 1".data, title := some "Title A".data,
         clauses := [⟨"1".data, "Body A".data, []⟩] },
       { article := some "Điều 2".data, title := some "Title B".data,
         clauses := [⟨"1".data, "Body B".data, []⟩] }] ∧
    (segment "Điều 1. Title A\nBody A\nĐiều 2. Title B\nBody B".data none).strategyUsed =
      some "dieu".data := by
  constructor <;> decide

/-- C10 — For the empty input string, `segment` returns an empty article list
with validation `{status: "empty", issues: ["Empty document"]}` — a status
outside `{success, warning, error}` — and no stats, no `document_type`, no
`strategy_used`. -/
theorem segment_empty_input :
    segment [] none =
      { articles := [],
        strategyUsed := none,
        validation := some { status := "empty".data, issues := ["Empty document".data],
                             stats := none },
        documentType := none } ∧
    "empty".data ∉ ["success".data, "warning".data, "error".data] := by
  constructor <;> decide

/-! ## Dictionary-model lemmas -/

theorem mem_keys_dinsert {α β : Type} [DecidableEq α] (m : List (α × β)) (k : α) (v : β)
    (a : α) : a ∈ (dinsert m k v).map Prod.fst ↔ a ∈ m.map Prod.fst ∨ a = k := by
  induction m with
  | nil => simp [dinsert]
  | cons p t ih =>
    obtain ⟨k2, v2⟩ := p
    by_cases h : k2 = k
    · subst h
      simp [dinsert]
      tauto
    · simp [dinsert, h, ih]
      tauto

theorem nodupKeys_dinsert {α β : Type} [DecidableEq α] (m : List (α × β)) (k : α) (v : β)
    (h : (m.map Prod.fst).Nodup) : ((dinsert m k v).map Prod.fst).Nodup := by
  induction m with
  | nil => simp [dinsert]
  | cons p t ih =>
    obtain ⟨k2, v2⟩ := p
    simp only [List.map_cons, List.nodup_cons] at h
    by_cases hk : k2 = k
    · subst hk
      simpa [dinsert] using h
    · simp only [dinsert, if_neg hk, List.map_cons, List.nodup_cons]
      refine ⟨fun hc => ?_, ih h.2⟩
      rcases (mem_keys_dinsert t k v k2).mp hc with h2 | h2
      · exact h.1 h2
      · exact hk h2

theorem dlookup_eq_some_of_mem {α β : Type} [DecidableEq α] (m : List (α × β)) (k : α)
    (v : β) (hnd : (m.map Prod.fst).Nodup) (hm : (k, v) ∈ m) : dlookup m k = some v := by
  induction m with
  | nil => simp at hm
  | cons p t ih =>
    obtain ⟨k2, v2⟩ := p
    simp only [List.map_cons, List.nodup_cons] at hnd
    rcases List.mem_cons.mp hm with h | h
    · obtain ⟨rfl, rfl⟩ := Prod.mk.injEq .. |>.mp h
      simp [dlookup]
    · have hk : k2 ≠ k := by
        intro he
        subst he
        exact hnd.1 (by simpa using List.mem_map_of_mem Prod.fst h)
      simp [dlookup, hk, ih hnd.2 h]

theorem mem_of_dlookup_eq_some {α β : Type} [DecidableEq α] (m : List (α × β)) (k : α)
    (v : β) (h : dlookup m k = some v) : (k, v) ∈ m := by
  induction m with
  | nil => simp [dlookup] at h
  | cons p t ih =>
    obtain ⟨k2, v2⟩ := p
    rw [dlookup] at h
    by_cases hk : k2 = k
    · rw [if_pos hk] at h
      subst hk
      obtain rfl : v2 = v := Option.some.injEq .. |>.mp h
      exact List.mem_cons_self _ _
    · rw [if_neg hk] at h
      exact List.mem_cons_of_mem _ (ih h)

theorem nodupKeys_kvInsertClauses (aid : List Char) (ps : List (List Char × List Char))
    (m : KV) (h : (m.map Prod.fst).Nodup) :
    ((kvInsertClauses aid ps m).map Prod.fst).Nodup := by
  induction ps generalizing m with
  | nil => exact h
  | cons p rest ih => exact ih _ (nodupKeys_dinsert _ _ _ h)

theorem nodupKeys_kvIndexAux (arts : List Article) (m : KV)
    (h : (m.map Prod.fst).Nodup) : ((kvIndexAux arts m).map Prod.fst).Nodup := by
  induction arts generalizing m with
  | nil => exact h
  | cons a rest ih => exact ih _ (nodupKeys_kvInsertClauses _ _ _ h)

/-- The composite-key index of any structure has pairwise-distinct keys. -/
theorem nodupKeys_kvIndex (s : SegResult) : ((kvIndex s).map Prod.fst).Nodup :=
  nodupKeys_kvIndexAux _ _ (by simp)

theorem dlookup_of_mem_kvIndex (s : SegResult) (k : List Char × List Char)
    (v : List Char) (h : (k, v) ∈ kvIndex s) : dlookup (kvIndex s) k = some v :=
  dlookup_eq_some_of_mem _ _ _ (nodupKeys_kvIndex s) h

/-- C5 — Diffing a structure against itself returns the empty sequence of
change records. -/
theorem diff_articles_self_empty (S : SegResult) : diff_articles S S = [] := by
  unfold diff_articles
  dsimp only
  rw [List.append_eq_nil]
  constructor
  · rw [List.filterMap_eq_nil_iff]
    intro kv hkv
    rw [dlookup_of_mem_kvIndex S kv.1 kv.2 hkv]
    simp
  · rw [List.filterMap_eq_nil_iff]
    intro kv hkv
    rw [dlookup_of_mem_kvIndex S kv.1 kv.2 hkv]

/-- Witness for C5 at a concrete structure. -/
theorem diff_articles_self_empty_witness : diff_articles isoBase isoBase = [] :=
  diff_articles_self_empty isoBase

/-! ## Membership characterizations of the diff output -/

theorem mem_diff_added_iff (A B : SegResult) (i v : List Char) :
    ({ level := "clause".data, id := i, change := "added".data,
       toTxt := some v } : ChangeRecord) ∈ diff_articles A B ↔
      ∃ k, i = mkId k ∧ dlookup (kvIndex A) k = none ∧
        dlookup (kvIndex B) k = some v := by
  unfold diff_articles
  dsimp only
  rw [List.mem_append]
  constructor
  · rintro (h | h)
    · rcases List.mem_filterMap.mp h with ⟨kv, hkv, hf⟩
      split at hf
      · next hb =>
        rw [Option.some.injEq] at hf
        have hid : mkId kv.1 = i := congrArg ChangeRecord.id hf
        have hv : kv.2 = v :=
          Option.some.injEq .. |>.mp (congrArg ChangeRecord.toTxt hf)
        refine ⟨kv.1, hid.symm, hb, ?_⟩
        rw [← hv]
        exact dlookup_of_mem_kvIndex B kv.1 kv.2 (by simpa using hkv)
      · next x hb =>
        split at hf
        · rw [Option.some.injEq] at hf
          exact absurd (congrArg ChangeRecord.change hf)
            (show ("modified".data : List Char) ≠ "added".data by decide)
        · exact absurd hf (by simp)
    · rcases List.mem_filterMap.mp h with ⟨kv, hkv, hf⟩
      split at hf
      · rw [Option.some.injEq] at hf
        exact absurd (congrArg ChangeRecord.change hf)
            (show ("deleted".data : List Char) ≠ "added".data by decide)
      · exact absurd hf (by simp)
  · rintro ⟨k, hid, ha, hb⟩
    left
    refine List.mem_filterMap.mpr ⟨(k, v), mem_of_dlookup_eq_some _ _ _ hb, ?_⟩
    dsimp only
    rw [ha]
    dsimp only
    rw [hid]

theorem mem_diff_deleted_iff (A B : SegResult) (i v : List Char) :
    ({ level := "clause".data, id := i, change := "deleted".data,
       fromTxt := some v } : ChangeRecord) ∈ diff_articles A B ↔
      ∃ k, i = mkId k ∧ dlookup (kvIndex A) k = some v ∧
        dlookup (kvIndex B) k = none := by
  unfold diff_articles
  dsimp only
  rw [List.mem_append]
  constructor
  · rintro (h | h)
    · rcases List.mem_filterMap.mp h with ⟨kv, hkv, hf⟩
      split at hf
      · rw [Option.some.injEq] at hf
        exact absurd (congrArg ChangeRecord.change hf)
            (show ("added".data : List Char) ≠ "deleted".data by decide)
      · split at hf
        · rw [Option.some.injEq] at hf
          exact absurd (congrArg ChangeRecord.change hf)
            (show ("modified".data : List Char) ≠ "deleted".data by decide)
        · exact absurd hf (by simp)
    · rcases List.mem_filterMap.mp h with ⟨kv, hkv, hf⟩
      split at hf
      · next hb =>
        rw [Option.some.injEq] at hf
        have hid : mkId kv.1 = i := congrArg ChangeRecord.id hf
        have hv : kv.2 = v :=
          Option.some.injEq .. |>.mp (congrArg ChangeRecord.fromTxt hf)
        refine ⟨kv.1, hid.symm, ?_, hb⟩
        rw [← hv]
        exact dlookup_of_mem_kvIndex A kv.1 kv.2 (by simpa using hkv)
      · exact absurd hf (by simp)
  · rintro ⟨k, hid, ha, hb⟩
    right
    refine List.mem_filterMap.mpr ⟨(k, v), mem_of_dlookup_eq_some _ _ _ ha, ?_⟩
    dsimp only
    rw [hb]
    dsimp only
    rw [hid]

theorem mem_diff_modified_iff (A B : SegResult) (i x y : List Char) :
    ({ level := "clause".data, id := i, change := "modified".data,
       fromTxt := some x, toTxt := some y } : ChangeRecord) ∈ diff_articles A B ↔
      ∃ k, i = mkId k ∧ dlookup (kvIndex A) k = some x ∧
        dlookup (kvIndex B) k = some y ∧ x ≠ y := by
  unfold diff_articles
  dsimp only
  rw [List.mem_append]
  constructor
  · rintro (h | h)
    · rcases List.mem_filterMap.mp h with ⟨kv, hkv, hf⟩
      split at hf
      · rw [Option.some.injEq] at hf
        exact absurd (congrArg ChangeRecord.change hf)
            (show ("added".data : List Char) ≠ "modified".data by decide)
      · next z hb =>
        split at hf
        · next hne =>
          rw [Option.some.injEq] at hf
          have hid : mkId kv.1 = i := congrArg ChangeRecord.id hf
          have hzx : z = x :=
            Option.some.injEq .. |>.mp (congrArg ChangeRecord.fromTxt hf)
          have hvy : kv.2 = y :=
            Option.some.injEq .. |>.mp (congrArg ChangeRecord.toTxt hf)
          refine ⟨kv.1, hid.symm, hzx ▸ hb, ?_, ?_⟩
          · rw [← hvy]
            exact dlookup_of_mem_kvIndex B kv.1 kv.2 (by simpa using hkv)
          · rw [← hzx, ← hvy]
            exact hne
        · exact absurd hf (by simp)
    · rcases List.mem_filterMap.mp h with ⟨kv, hkv, hf⟩
      split at hf
      · rw [Option.some.injEq] at hf
        exact absurd (congrArg ChangeRecord.change hf)
            (show ("deleted".data : List Char) ≠ "modified".data by decide)
      · exact absurd hf (by simp)
  · rintro ⟨k, hid, ha, hb, hxy⟩
    left
    refine List.mem_filterMap.mpr ⟨(k, y), mem_of_dlookup_eq_some _ _ _ hb, ?_⟩
    dsimp only
    rw [ha]
    dsimp only
    rw [if_pos hxy, hid]

/-- C6 — Each `added` record of `diff(A, B)` appears as a `deleted` record
(with `from`/`to` swapped) in `diff(B, A)` and vice versa, and each `modified`
record of `diff(A, B)` appears in `diff(B, A)` with its `from` and `to`
swapped. -/
theorem diff_articles_symmetry (A B : SegResult) (i v x y : List Char) :
    (({ level := "clause".data, id := i, change := "added".data,
        toTxt := some v } : ChangeRecord) ∈ diff_articles A B ↔
      ({ level := "clause".data, id := i, change := "deleted".data,
         fromTxt := some v } : ChangeRecord) ∈ diff_articles B A) ∧
    (({ level := "clause".data, id := i, change := "deleted".data,
        fromTxt := some v } : ChangeRecord) ∈ diff_articles A B ↔
      ({ level := "clause".data, id := i, change := "added".data,
         toTxt := some v } : ChangeRecord) ∈ diff_articles B A) ∧
    (({ level := "clause".data, id := i, change := "modified".data,
        fromTxt := some x, toTxt := some y } : ChangeRecord) ∈ diff_articles A B ↔
      ({ level := "clause".data, id := i, change := "modified".data,
         fromTxt := some y, toTxt := some x } : ChangeRecord) ∈ diff_articles B A) := by
  refine ⟨?_, ?_, ?_⟩
  · rw [mem_diff_added_iff, mem_diff_deleted_iff]
    constructor
    · rintro ⟨k, h1, h2, h3⟩
      exact ⟨k, h1, h3, h2⟩
    · rintro ⟨k, h1, h2, h3⟩
      exact ⟨k, h1, h3, h2⟩
  · rw [mem_diff_deleted_iff, mem_diff_added_iff]
    constructor
    · rintro ⟨k, h1, h2, h3⟩
      exact ⟨k, h1, h3, h2⟩
    · rintro ⟨k, h1, h2, h3⟩
      exact ⟨k, h1, h3, h2⟩
  · rw [mem_diff_modified_iff, mem_diff_modified_iff]
    constructor
    · rintro ⟨k, h1, h2, h3, h4⟩
      exact ⟨k, h1, h3, h2, h4.symm⟩
    · rintro ⟨k, h1, h2, h3, h4⟩
      exact ⟨k, h1, h3, h2, h4.symm⟩

/-- Witness for C6 at concrete structures: an `added` record transfers to the
reverse diff as `deleted`, and a `modified` record transfers with `from`/`to`
swapped. -/
theorem diff_articles_symmetry_witness :
    (({ level := "clause".data, id := "Điều 1.1".data, change := "deleted".data,
        fromTxt := some "aaa".data } : ChangeRecord) ∈
      diff_articles isoBase emptyStruct) ∧
    (({ level := "clause".data, id := "Điều 2.1".data, change := "modified".data,
        fromTxt := some "ccc".data, toTxt := some "bbb".data } : ChangeRecord) ∈
      diff_articles isoRev isoBase) :=
  ⟨(diff_articles_symmetry emptyStruct isoBase "Điều 1.1".data "aaa".data [] []).1.mp
      (by decide),
   (diff_articles_symmetry isoBase isoRev "Điều 2.1".data [] "bbb".data
      "ccc".data).2.2.mp (by decide)⟩

/-! ## Composite-key isolation -/

theorem dlookup_kvRestrict (m : KV) (y n : List Char) :
    dlookup (kvRestrict y m) (y, n) = dlookup m (y, n) := by
  induction m with
  | nil => rfl
  | cons kv t ih =>
    obtain ⟨⟨a, b⟩, v⟩ := kv
    by_cases ha : a = y
    · subst ha
      by_cases hbn : b = n
      · subst hbn
        simp [kvRestrict, dlookup]
      · have hne : ((a, b) : List Char × List Char) ≠ (a, n) := by simp [hbn]
        simp only [kvRestrict, List.filter_cons] at *
        rw [if_pos (by simp)]
        rw [dlookup, dlookup, if_neg hne, if_neg hne]
        exact ih
    · have hne : ((a, b) : List Char × List Char) ≠ (y, n) := by simp [ha]
      simp only [kvRestrict, List.filter_cons] at *
      rw [if_neg (by simpa using ha)]
      rw [dlookup, if_neg hne]
      exact ih

/-- C7 (amended) — If every indexed clause of article identifier `y` is
unchanged between the two structures, then no change record of the diff arises
from a composite key with that article identifier: every record is generated
from a key whose article part differs from `y` and whose looked-up texts
differ between the two indexes.  (The composite `(article_id, clause_no)` key
isolates articles with *distinct identifiers*; two distinct articles sharing
one identifier collide, see the counterexample.) -/
theorem composite_key_isolation (A B : SegResult) (y : List Char)
    (h : kvRestrict y (kvIndex A) = kvRestrict y (kvIndex B)) :
    ∀ r ∈ diff_articles A B, ∃ k, r.id = mkId k ∧ k.1 ≠ y ∧
      dlookup (kvIndex A) k ≠ dlookup (kvIndex B) k := by
  have hpoint : ∀ n, dlookup (kvIndex A) (y, n) = dlookup (kvIndex B) (y, n) := by
    intro n
    rw [← dlookup_kvRestrict (kvIndex A) y n, ← dlookup_kvRestrict (kvIndex B) y n, h]
  have hkeyOf : ∀ k : List Char × List Char, k.1 = y →
      dlookup (kvIndex A) k = dlookup (kvIndex B) k := by
    intro k hy
    have hkey : (y, k.2) = k := by
      rw [← hy]
    rw [← hkey]
    exact hpoint k.2
  intro r hr
  unfold diff_articles at hr
  dsimp only at hr
  rcases List.mem_append.mp hr with h1 | h1
  · rcases List.mem_filterMap.mp h1 with ⟨kv, hkv, hf⟩
    split at hf
    · next hb =>
      have hBl : dlookup (kvIndex B) kv.1 = some kv.2 :=
        dlookup_of_mem_kvIndex B kv.1 kv.2 (by simpa using hkv)
      have hdiff : dlookup (kvIndex A) kv.1 ≠ dlookup (kvIndex B) kv.1 := by
        rw [hb, hBl]
        simp
      obtain rfl := Option.some.injEq .. |>.mp hf
      exact ⟨kv.1, rfl, fun hy => hdiff (hkeyOf kv.1 hy), hdiff⟩
    · next z hb =>
      split at hf
      · next hne =>
        have hBl : dlookup (kvIndex B) kv.1 = some kv.2 :=
          dlookup_of_mem_kvIndex B kv.1 kv.2 (by simpa using hkv)
        have hdiff : dlookup (kvIndex A) kv.1 ≠ dlookup (kvIndex B) kv.1 := by
          rw [hb, hBl]
          simp [hne]
        obtain rfl := Option.some.injEq .. |>.mp hf
        exact ⟨kv.1, rfl, fun hy => hdiff (hkeyOf kv.1 hy), hdiff⟩
      · exact absurd hf (by simp)
  · rcases List.mem_filterMap.mp h1 with ⟨kv, hkv, hf⟩
    split at hf
    · next hb =>
      have hAl : dlookup (kvIndex A) kv.1 = some kv.2 :=
        dlookup_of_mem_kvIndex A kv.1 kv.2 (by simpa using hkv)
      have hdiff : dlookup (kvIndex A) kv.1 ≠ dlookup (kvIndex B) kv.1 := by
        rw [hb, hAl]
        simp
      obtain rfl := Option.some.injEq .. |>.mp hf
      exact ⟨kv.1, rfl, fun hy => hdiff (hkeyOf kv.1 hy), hdiff⟩
    · exact absurd hf (by simp)

/-- C7 counterexample — two *distinct* articles (`dupArticleOne ≠
`dupArticleTwo`, different titles) sharing the label `"Điều 1"`, each holding
a clause of ordinal `"1"`.  Only the second article's clause text changes
between `dupBase` and `dupRev` (the first article is literally identical in
both), yet the diff's single change record carries exactly the first article's
composite identifier `mkId (articleId dupArticleOne, "1")`: with equal article
identifiers the composite keys collide and the claim as stated fails. -/
theorem composite_key_counterexample :
    dupArticleOne ≠ dupArticleTwo ∧
    dupBase.articles = [dupArticleOne, dupArticleTwo] ∧
    dupRev.articles = [dupArticleOne, dupArticleTwoRev] ∧
    dupArticleTwo.clauses = [⟨"1".data, "yyy".data, []⟩] ∧
    dupArticleTwoRev.clauses = [⟨"1".data, "zzz".data, []⟩] ∧
    diff_articles dupBase dupRev =
      [{ level := "clause".data, id := "Điều 1.1".data, change := "modified".data,
         fromTxt := some "yyy".data, toTxt := some "zzz".data }] ∧
    mkId (articleId dupArticleOne, "1".data) = "Điều 1.1".data := by
  refine ⟨by decide, by decide, by decide, by decide, by decide, by decide, by decide⟩

/-- Witness for the amended C7 at concrete structures with distinct article
identifiers. -/
theorem composite_key_isolation_witness :
    kvRestrict "Điều 1".data (kvIndex isoBase) =
      kvRestrict "Điều 1".data (kvIndex isoRev) ∧
    (∃ k, ({ level := "clause".data, id := "Điều 2.1".data, change := "modified".data,
             fromTxt := some "bbb".data, toTxt := some "ccc".data } :
        ChangeRecord).id = mkId k ∧ k.1 ≠ "Điều 1".data ∧
      dlookup (kvIndex isoBase) k ≠ dlookup (kvIndex isoRev) k) :=
  ⟨by decide,
   composite_key_isolation isoBase isoRev "Điều 1".data (by decide) _ (by decide)⟩

/-! ## The Điều-stage thresholds (C8) -/

/-- C8 — The Điều-pattern stage succeeds (its matches become the article list,
tagged `dieu` where a tag is set) exactly when it finds at least 2 matches for
a Law or Generic document, and at least 1 match for a Decree document; with
fewer matches that stage's output is not used and the cascade proceeds. -/
theorem dieu_stage_thresholds (text : List Char) :
    ((segmentLawDocument text).strategyUsed = some "dieu".data ↔
      2 ≤ (artLawFindAll text).length) ∧
    ((segmentGenericDocument text).strategyUsed = some "dieu".data ↔
      2 ≤ (artLawFindAll text).length) ∧
    (2 ≤ (artLawFindAll text).length →
      (segmentLawDocument text).articles = segmentByDieu text (artLawFindAll text) ∧
      (segmentGenericDocument text).articles = segmentByDieu text (artLawFindAll text)) ∧
    ((segmentDecreeDocument text).articles = segmentByDieu text (artLawFindAll text) ↔
      1 ≤ (artLawFindAll text).length) := by
  refine ⟨?_, ?_, ?_, ?_⟩
  · unfold segmentLawDocument
    dsimp only
    split
    · next h => exact iff_of_true rfl h
    · next h =>
      split
      · exact iff_of_false (by simp) h
      · split
        · exact iff_of_false (by simp) h
        · exact iff_of_false (by simp) h
  · unfold segmentGenericDocument
    dsimp only
    split
    · next h => exact iff_of_true rfl h
    · next h =>
      split
      · exact iff_of_false
          (show ¬((some "chapters".data : Option (List Char)) = some "dieu".data)
            by decide) h
      · split
        · exact iff_of_false
            (show ¬((some "sections".data : Option (List Char)) = some "dieu".data)
              by decide) h
        · split
          · exact iff_of_false
              (show ¬((some "roman".data : Option (List Char)) = some "dieu".data)
                by decide) h
          · split
            · exact iff_of_false
                (show ¬((some "fallback".data : Option (List Char)) = some "dieu".data)
                  by decide) h
            · exact iff_of_false
                (show ¬((some "ultimate_fallback".data : Option (List Char)) =
                    some "dieu".data) by decide) h
  · intro h
    constructor
    · unfold segmentLawDocument
      dsimp only
      rw [if_pos h]
    · unfold segmentGenericDocument
      dsimp only
      rw [if_pos h]
  · unfold segmentDecreeDocument
    dsimp only
    split
    · next h => exact iff_of_true rfl h
    · next h =>
      have h0 : artLawFindAll text = [] := by
        cases hh : artLawFindAll text with
        | nil => rfl
        | cons a t =>
          rw [hh] at h
          simp at h
      rw [h0, segmentByDieu]
      refine iff_of_false ?_ (by simp)
      split
      · next hc => exact segmentByChaptersAdvanced_ne_nil _ _ hc
      · exact segmentFallbackAdvanced_ne_nil _

/-- Witness for C8 at a concrete two-Điều text and at a no-Điều decree
fallback. -/
theorem dieu_stage_thresholds_witness :
    (2 ≤ (artLawFindAll "Điều 1. A\nĐiều 2. B".data).length ∧
      (segmentLawDocument "Điều 1. A\nĐiều 2. B".data).strategyUsed =
        some "dieu".data ∧
      (segmentDecreeDocument "Điều 1. A\nĐiều 2. B".data).articles =
        segmentByDieu "Điều 1. A\nĐiều 2. B".data
          (artLawFindAll "Điều 1. A\nĐiều 2. B".data)) ∧
    ¬((segmentDecreeDocument "văn bản".data).articles =
        segmentByDieu "văn bản".data (artLawFindAll "văn bản".data)) :=
  ⟨⟨by decide,
    (dieu_stage_thresholds "Điều 1. A\nĐiều 2. B".data).1.mpr (by decide),
    (dieu_stage_thresholds "Điều 1. A\nĐiều 2. B".data).2.2.2.mpr (by decide)⟩,
   fun hc => by
    have := (dieu_stage_thresholds "văn bản".data).2.2.2.mp hc
    revert this
    decide⟩

/-! ## The `strategy_used` tag (C4) -/

theorem segmentDecreeDocument_strategy_none (text : List Char) :
    (segmentDecreeDocument text).strategyUsed = none := by
  unfold segmentDecreeDocument
  dsimp only
  split
  · rfl
  · split
    · rfl
    · rfl

theorem segmentCircularDocument_strategy_none (text : List Char) :
    (segmentCircularDocument text).strategyUsed = none := by
  unfold segmentCircularDocument
  dsimp only
  split
  · rfl
  · split
    · rfl
    · split
      · rfl
      · rfl

theorem segmentLawDocument_strategy (text : List Char) :
    (segmentLawDocument text).strategyUsed = some "dieu".data ∨
      (segmentLawDocument text).strategyUsed = none := by
  unfold segmentLawDocument
  dsimp only
  split
  · exact Or.inl rfl
  · split
    · exact Or.inr rfl
    · split
      · exact Or.inr rfl
      · exact Or.inr rfl

theorem segmentGenericDocument_strategy (text : List Char) :
    ∃ tag, (segmentGenericDocument text).strategyUsed = some tag ∧
      tag ∈ ["dieu".data, "chapters".data, "sections".data, "roman".data,
             "fallback".data, "ultimate_fallback".data] := by
  unfold segmentGenericDocument
  dsimp only
  split
  · exact ⟨_, rfl, by decide⟩
  · split
    · exact ⟨_, rfl, by decide⟩
    · split
      · exact ⟨_, rfl, by decide⟩
      · split
        · exact ⟨_, rfl, by decide⟩
        · split
          · exact ⟨_, rfl, by decide⟩
          · exact ⟨_, rfl, by decide⟩

/-- `segment` on non-empty input, unfolded one step. -/
theorem segment_eq_of_ne_nil (t : List Char) (m : Option DocMeta) (ht : t ≠ []) :
    segment t m =
      (let text := normalizeText t
       let docType := detectDocumentType text m
       let result :=
         if docType = "law".data then segmentLawDocument text
         else if docType = "decree".data then segmentDecreeDocument text
         else if docType = "circular".data then segmentCircularDocument text
         else segmentGenericDocument text
       { result with
         validation := some (validateSegmentation text result text.length),
         documentType := some docType }) := by
  unfold segment
  rw [if_neg ht]

/-- C4 counterexample — a non-empty decree document whose `segment` result
carries *no* `strategy_used` tag at all (the decree cascade never sets one),
refuting the claim that every result for a non-empty document carries a tag
from the cascade set. -/
theorem strategy_used_missing_counterexample :
    "NGHỊ ĐỊNH\nNội dung một".data ≠ ([] : List Char) ∧
    (segment "NGHỊ ĐỊNH\nNội dung một".data none).documentType = some "decree".data ∧
    (segment "NGHỊ ĐỊNH\nNội dung một".data none).strategyUsed = none := by
  refine ⟨by decide, by decide, by decide⟩

/-- C4 (amended) — Any tag that *is* set is drawn from
`{dieu, chapters, roman, sections, fallback, ultimate_fallback}`; results
dispatched to the Generic cascade always carry a tag; results dispatched to
the Decree or Circular cascade never do; results dispatched to the Law
cascade carry `dieu` or nothing. -/
theorem strategy_used_amended (t : List Char) (m : Option DocMeta) (ht : t ≠ []) :
    (∀ tag, (segment t m).strategyUsed = some tag →
      tag ∈ ["dieu".data, "chapters".data, "sections".data, "roman".data,
             "fallback".data, "ultimate_fallback".data]) ∧
    ((segment t m).documentType = some "generic".data →
      (segment t m).strategyUsed ≠ none) ∧
    ((segment t m).documentType = some "decree".data ∨
        (segment t m).documentType = some "circular".data →
      (segment t m).strategyUsed = none) ∧
    ((segment t m).documentType = some "law".data →
      (segment t m).strategyUsed = some "dieu".data ∨
        (segment t m).strategyUsed = none) := by
  rw [segment_eq_of_ne_nil t m ht]
  dsimp only
  refine ⟨?_, ?_, ?_, ?_⟩
  · intro tag htag
    revert htag
    split
    · intro htag
      rcases segmentLawDocument_strategy (normalizeText t) with h | h <;> rw [h] at htag
      · obtain rfl := Option.some.injEq .. |>.mp htag
        decide
      · exact absurd htag (by simp)
    · split
      · intro htag
        rw [segmentDecreeDocument_strategy_none] at htag
        exact absurd htag (by simp)
      · split
        · intro htag
          rw [segmentCircularDocument_strategy_none] at htag
          exact absurd htag (by simp)
        · intro htag
          obtain ⟨tag2, h2, hmem⟩ := segmentGenericDocument_strategy (normalizeText t)
          rw [h2] at htag
          obtain rfl := Option.some.injEq .. |>.mp htag
          exact hmem
  · intro hdt
    have hgen : detectDocumentType (normalizeText t) m = "generic".data :=
      Option.some.injEq .. |>.mp hdt
    split
    · next hlaw => exact absurd (hlaw.symm.trans hgen) (by decide)
    · split
      · next hdec => exact absurd (hdec.symm.trans hgen) (by decide)
      · split
        · next hcir => exact absurd (hcir.symm.trans hgen) (by decide)
        · obtain ⟨tag2, h2, -⟩ := segmentGenericDocument_strategy (normalizeText t)
          rw [h2]
          simp
  · intro hdt
    have hdc : detectDocumentType (normalizeText t) m = "decree".data ∨
        detectDocumentType (normalizeText t) m = "circular".data := by
      rcases hdt with h | h
      · exact Or.inl (Option.some.injEq .. |>.mp h)
      · exact Or.inr (Option.some.injEq .. |>.mp h)
    split
    · next hlaw =>
      rcases hdc with h | h <;>
        exact absurd (hlaw.symm.trans h) (by decide)
    · split
      · exact segmentDecreeDocument_strategy_none _
      · split
        · exact segmentCircularDocument_strategy_none _
        · next hndec hncir =>
          rcases hdc with h | h
          · exact absurd h hndec
          · exact absurd h hncir
  · intro hdt
    have hlaweq : detectDocumentType (normalizeText t) m = "law".data :=
      Option.some.injEq .. |>.mp hdt
    split
    · exact segmentLawDocument_strategy _
    · next hnlaw => exact absurd hlaweq hnlaw

/-- Witness for the amended C4 at concrete inputs. -/
theorem strategy_used_amended_witness :
    ("X".data ≠ ([] : List Char)) ∧
    (segment "X".data none).documentType = some "generic".data ∧
    (segment "X".data none).strategyUsed ≠ none :=
  ⟨by decide, by decide,
   (strategy_used_amended "X".data none (by decide)).2.1 (by decide)⟩

/-! ## The document-type classifier (C9) -/

def docTypeNames : List (List Char) :=
  ["law".data, "decree".data, "circular".data, "decision".data,
   "directive".data, "instruction".data]

theorem docTypePatterns_fst (p : List Char × (List Char → Bool))
    (hp : p ∈ docTypePatterns) : p.1 ∈ docTypeNames := by
  simp only [docTypePatterns, List.mem_cons, List.not_mem_nil, or_false] at hp
  rcases hp with h | h | h | h | h | h <;> (rw [h]; decide)

theorem metaHit_mem (m : DocMeta) (name : List Char) (h : metaHit m = some name) :
    name ∈ docTypeNames := by
  unfold metaHit at h
  rcases Option.map_eq_some'.mp h with ⟨p, hp, hfst⟩
  exact hfst ▸ docTypePatterns_fst p (List.mem_of_find?_eq_some hp)

theorem contentHit_mem (text : List Char) (name : List Char)
    (h : contentHit text = some name) : name ∈ docTypeNames := by
  unfold contentHit at h
  rcases Option.map_eq_some'.mp h with ⟨p, hp, hfst⟩
  exact hfst ▸ docTypePatterns_fst p (List.mem_of_find?_eq_some hp)

theorem mem_docTypeNames_ext (n : List Char) (h : n ∈ docTypeNames) :
    n ∈ ["law".data, "decree".data, "circular".data, "decision".data,
         "directive".data, "instruction".data, "generic".data] := by
  simp only [docTypeNames, List.mem_cons, List.not_mem_nil, or_false] at h
  simp only [List.mem_cons, List.not_mem_nil, or_false]
  tauto

/-- C9 — The classifier always returns exactly one of the seven document
types; the metadata (when present) is tested first with the first matching
pattern winning regardless of the text; otherwise the first pattern matching
the first 1000 characters of the text wins; and if nothing matches the result
is `generic`. -/
theorem detect_document_type_spec (text : List Char) (dm : Option DocMeta) :
    (detectDocumentType text dm ∈
      ["law".data, "decree".data, "circular".data, "decision".data,
       "directive".data, "instruction".data, "generic".data]) ∧
    (∀ m name, dm = some m → metaHit m = some name →
      detectDocumentType text dm = name) ∧
    (∀ m, dm = some m → metaHit m = none →
      detectDocumentType text dm = contentResolve text) ∧
    (dm = none → detectDocumentType text dm = contentResolve text) ∧
    (contentHit text = none → contentResolve text = "generic".data) ∧
    (∀ name, contentHit text = some name → contentResolve text = name) := by
  refine ⟨?_, ?_, ?_, ?_, ?_, ?_⟩
  · unfold detectDocumentType
    cases dm with
    | none =>
      dsimp only
      cases hc : contentHit text with
      | none => decide
      | some n => exact mem_docTypeNames_ext n (contentHit_mem text n hc)
    | some m =>
      dsimp only
      cases hm : metaHit m with
      | some n => exact mem_docTypeNames_ext n (metaHit_mem m n hm)
      | none =>
        cases hc : contentHit text with
        | none => decide
        | some n => exact mem_docTypeNames_ext n (contentHit_mem text n hc)
  · intro m name hdm hmh
    subst hdm
    unfold detectDocumentType
    dsimp only
    rw [hmh]
  · intro m hdm hmh
    subst hdm
    unfold detectDocumentType
    dsimp only
    rw [hmh]
    rfl
  · intro hdm
    subst hdm
    rfl
  · intro h
    unfold contentResolve
    rw [h]
  · intro name h
    unfold contentResolve
    rw [h]

/-- Witness for C9 at concrete inputs: unmatched text defaults to `generic`;
a metadata title containing `LUẬT` classifies as `law` with no text at all. -/
theorem detect_document_type_spec_witness :
    detectDocumentType "xin chào".data none = "generic".data ∧
    detectDocumentType [] (some ⟨"LUẬT GIAO THÔNG".data, []⟩) = "law".data := by
  constructor
  · have h := (detect_document_type_spec "xin chào".data none).2.2.2.1 rfl
    rw [h]
    decide
  · exact (detect_document_type_spec [] (some ⟨"LUẬT GIAO THÔNG".data, []⟩)).2.1
      ⟨"LUẬT GIAO THÔNG".data, []⟩ "law".data rfl (by decide)

/-! ## Validation (C3) -/

theorem veryLongMsg_head (n : Nat) : (veryLongMsg n).head? = some 'V' := rfl

theorem lowMsg_ne_veryLong (n : Nat) : lowPreservationMsg ≠ veryLongMsg n := by
  intro h
  have h2 := congrArg List.head? h
  rw [veryLongMsg_head] at h2
  exact absurd h2 (by decide)

theorem dupMsg_ne_veryLong (n : Nat) : duplicationMsg ≠ veryLongMsg n := by
  intro h
  have h2 := congrArg List.head? h
  rw [veryLongMsg_head] at h2
  exact absurd h2 (by decide)

theorem noArtMsg_ne_veryLong (n : Nat) : noArticlesMsg ≠ veryLongMsg n := by
  intro h
  have h2 := congrArg List.head? h
  rw [veryLongMsg_head] at h2
  exact absurd h2 (by decide)

theorem mem_longClauseIssues (arts : List Article) (x : List Char) :
    x ∈ longClauseIssues arts ↔
      ∃ a ∈ arts, ∃ c ∈ a.clauses, 2000 < c.text.length ∧
        x = veryLongMsg c.text.length := by
  unfold longClauseIssues
  rw [List.mem_flatMap]
  constructor
  · rintro ⟨a, ha, hx⟩
    rcases List.mem_filterMap.mp hx with ⟨c, hc, hf⟩
    split at hf
    · next hlen => exact ⟨a, ha, c, hc, hlen, (Option.some.injEq .. |>.mp hf).symm⟩
    · exact absurd hf (by simp)
  · rintro ⟨a, ha, c, hc, hlen, hx⟩
    refine ⟨a, ha, List.mem_filterMap.mpr ⟨c, hc, ?_⟩⟩
    rw [if_pos hlen, hx]

/-- C3 — For every completed structure, validation issues the "low content
preservation" warning exactly when the preservation ratio is below 0.7, the
"content duplication" warning exactly when it exceeds 1.3, the "no articles
found" error exactly when the article list is empty, and a "very long clause"
warning for each clause whose text exceeds 2000 characters; the final status
is `error` iff the article list is empty, else `warning` iff any issue was
raised, else `success`. -/
theorem validate_segmentation_spec (txt : List Char) (r : SegResult) (len : Nat) :
    (lowPreservationMsg ∈ (validateSegmentation txt r len).issues ↔
      preservationRatio r.articles len < mkRat 7 10) ∧
    (duplicationMsg ∈ (validateSegmentation txt r len).issues ↔
      mkRat 13 10 < preservationRatio r.articles len) ∧
    (noArticlesMsg ∈ (validateSegmentation txt r len).issues ↔ r.articles = []) ∧
    (∀ a ∈ r.articles, ∀ c ∈ a.clauses, 2000 < c.text.length →
      veryLongMsg c.text.length ∈ (validateSegmentation txt r len).issues) ∧
    ((∀ a ∈ r.articles, ∀ c ∈ a.clauses, c.text.length ≤ 2000) →
      ∀ n, veryLongMsg n ∉ (validateSegmentation txt r len).issues) ∧
    ((validateSegmentation txt r len).status =
      if r.articles = [] then "error".data
      else if (validateSegmentation txt r len).issues ≠ [] then "warning".data
      else "success".data) := by
  unfold validateSegmentation
  dsimp only
  refine ⟨?_, ?_, ?_, ?_, ?_, ?_⟩
  · simp only [List.mem_append]
    constructor
    · rintro (((h | h) | h) | h)
      · revert h
        split
        · next h1 => exact fun _ => h1
        · simp
      · revert h
        split
        · intro hmem
          exact absurd (List.mem_singleton.mp hmem) (by decide)
        · simp
      · revert h
        split
        · intro hmem
          exact absurd (List.mem_singleton.mp hmem) (by decide)
        · simp
      · rcases (mem_longClauseIssues _ _).mp h with ⟨a, -, c, -, -, hx⟩
        exact absurd hx (lowMsg_ne_veryLong _)
    · intro h1
      left; left; left
      rw [if_pos h1]
      exact List.mem_singleton.mpr rfl
  · simp only [List.mem_append]
    constructor
    · rintro (((h | h) | h) | h)
      · revert h
        split
        · intro hmem
          exact absurd (List.mem_singleton.mp hmem) (by decide)
        · simp
      · revert h
        split
        · next h2 => exact fun _ => h2
        · simp
      · revert h
        split
        · intro hmem
          exact absurd (List.mem_singleton.mp hmem) (by decide)
        · simp
      · rcases (mem_longClauseIssues _ _).mp h with ⟨a, -, c, -, -, hx⟩
        exact absurd hx (dupMsg_ne_veryLong _)
    · intro h2
      left; left; right
      rw [if_pos h2]
      exact List.mem_singleton.mpr rfl
  · simp only [List.mem_append]
    constructor
    · rintro (((h | h) | h) | h)
      · revert h
        split
        · intro hmem
          exact absurd (List.mem_singleton.mp hmem) (by decide)
        · simp
      · revert h
        split
        · intro hmem
          exact absurd (List.mem_singleton.mp hmem) (by decide)
        · simp
      · revert h
        split
        · next h3 => exact fun _ => List.length_eq_zero.mp h3
        · simp
      · rcases (mem_longClauseIssues _ _).mp h with ⟨a, -, c, -, -, hx⟩
        exact absurd hx (noArtMsg_ne_veryLong _)
    · intro h3
      left; right
      rw [if_pos (by rw [h3]; rfl)]
      exact List.mem_singleton.mpr rfl
  · intro a ha c hc hlen
    exact List.mem_append.mpr
      (Or.inr ((mem_longClauseIssues _ _).mpr ⟨a, ha, c, hc, hlen, rfl⟩))
  · intro hall n hmem
    rcases List.mem_append.mp hmem with h | h
    · rcases List.mem_append.mp h with h | h
      · rcases List.mem_append.mp h with h | h
        · revert h
          split
          · intro hmem2
            exact absurd (List.mem_singleton.mp hmem2).symm (lowMsg_ne_veryLong n)
          · simp
        · revert h
          split
          · intro hmem2
            exact absurd (List.mem_singleton.mp hmem2).symm (dupMsg_ne_veryLong n)
          · simp
      · revert h
        split
        · intro hmem2
          exact absurd (List.mem_singleton.mp hmem2).symm (noArtMsg_ne_veryLong n)
        · simp
    · rcases (mem_longClauseIssues _ _).mp h with ⟨a, ha, c, hc, hlen, -⟩
      exact absurd hlen (Nat.not_lt.mpr (hall a ha c hc))
  · by_cases h3 : r.articles = []
    · have hlen0 : r.articles.length = 0 := by rw [h3]; rfl
      have hlongs : longClauseIssues r.articles = [] := by rw [h3]; rfl
      rw [hlongs, if_pos hlen0, if_pos h3]
      simp
    · have hlen0 : ¬(r.articles.length = 0) := fun hc => h3 (List.length_eq_zero.mp hc)
      rw [if_neg hlen0, if_neg h3]
      by_cases hl : longClauseIssues r.articles = []
      · rw [hl]
        by_cases hc1 : preservationRatio r.articles len < mkRat 7 10 <;>
          by_cases hc2 : mkRat 13 10 < preservationRatio r.articles len <;>
            simp [hc1, hc2, hlen0]
      · have hlne : longClauseIssues r.articles ≠ [] := hl
        rw [if_pos hlne, if_pos (by simp [hlne])]

/-- Witness for C3 at concrete structures: a clause of 2001 characters raises
its "very long clause" warning; an empty article list raises the "no articles
found" error with status `error`. -/
theorem validate_segmentation_spec_witness :
    veryLongMsg 2001 ∈ (validateSegmentation [] longClauseStruct 3000).issues ∧
    noArticlesMsg ∈ (validateSegmentation [] emptyStruct 10).issues ∧
    (validateSegmentation [] emptyStruct 10).status = "error".data :=
  ⟨(validate_segmentation_spec [] longClauseStruct 3000).2.2.2.1
      { article := some "Điều 1".data,
        clauses := [⟨"1".data, List.replicate 2001 'a', []⟩] }
      (by simp [longClauseStruct])
      ⟨"1".data, List.replicate 2001 'a', []⟩ (by simp) (by simp),
    (validate_segmentation_spec [] emptyStruct 10).2.2.1.mpr rfl,
    by decide⟩

end VnLegal
